import Mathlib

/-!
# Telemetry resource inventory: query-parameter resolution, key paths, profile store

A shallow embedding of

* `pkg/utils/urls/urls.go` (key-path builder),
* `pkg/db/drivers/etcd/etcd.go` (query-parameter resolver, filter/sort/paginate
  pipeline, store client for profiles and pools),
* `pkg/dock/discovery/discovery.go` (registration and report of the discovered
  docks and pools),

together with the properties of these functions that the specification states.

Conventions of the embedding.

* Go `int` is the 64-bit two's-complement integer: values are `Int`, and the one
  addition the code performs on them (`limit + offset`) is wrapped by `wrapInt`.
* A Go run-time panic (indexing `v[0]` of an empty slice) is the result `none`.
* `map[string][]string` is an association list read through `List.lookup`.
* Functions of the Go standard library (`strconv.Atoi`, `strings.EqualFold`,
  `strings.ToUpper`, `strings.Join`) are modelled by the definitions of the first
  section. The Unicode case tables they read are the parameter `CaseTables`: every
  general theorem holds for all case tables, and an example that evaluates a
  function names the table `basicLatinTables` it is evaluated on.
-/

set_option autoImplicit false

namespace Telemetry

/-! ## Go standard library -/

/-- Two's-complement wrap-around of a mathematical integer into the range of Go's
64-bit `int`. -/
def wrapInt (x : Int) : Int :=
  (x + 2 ^ 63) % 2 ^ 64 - 2 ^ 63

/-- Value of a decimal digit, `none` for any other character. -/
def digitValue (c : Char) : Option Nat :=
  if 48 ≤ c.toNat ∧ c.toNat ≤ 57 then some (c.toNat - 48) else none

/-- Value of a string of decimal digits read left to right, starting from the
accumulator `acc`; `none` as soon as a character is not a digit. -/
def parseDigits : List Char → Nat → Option Nat
  | [], acc => some acc
  | c :: cs, acc =>
    match digitValue c with
    | some d => parseDigits cs (acc * 10 + d)
    | none => none

/-- Unsigned part of `strconv.Atoi`: at least one character, all of them digits. -/
def parseUnsigned (cs : List Char) : Option Nat :=
  match cs with
  | [] => none
  | _ :: _ => parseDigits cs 0

/-- Model of `strconv.Atoi`: an optional sign followed by one or more decimal
digits, the value lying in the range of the 64-bit `int`. `none` stands for a
non-nil `err` (syntax or range). -/
def Atoi (s : String) : Option Int :=
  match s.data with
  | [] => none
  | c :: cs =>
    if c = '-' then
      match parseUnsigned cs with
      | some n => if n ≤ 2 ^ 63 then some (-(n : Int)) else none
      | none => none
    else if c = '+' then
      match parseUnsigned cs with
      | some n => if n < 2 ^ 63 then some (n : Int) else none
      | none => none
    else
      match parseUnsigned (c :: cs) with
      | some n => if n < 2 ^ 63 then some (n : Int) else none
      | none => none

/-- The case tables of Go's package `unicode`, which `strings.ToUpper` and
`strings.EqualFold` read. They belong to the Go distribution, not to the sources, and
are a parameter of the embedding: `upperRune` is `unicode.ToUpper`, and `foldRune`
gives, for each code point, a fixed representative of its orbit under
`unicode.SimpleFold`. The five facts recorded are those of the Unicode tables about
the letters of the Basic Latin block, U+017F and U+212A. -/
class CaseTables where
  upperRune : Char → Char
  foldRune : Char → Char
  /-- The upper case of `a`..`z` is `A`..`Z`. -/
  upper_of_lower : ∀ c : Char, 97 ≤ c.toNat → c.toNat ≤ 122 →
    (upperRune c).toNat = c.toNat - 32
  /-- U+212A (KELVIN SIGN) is an upper-case letter: it is its own upper case. -/
  upper_kelvin : (upperRune (Char.ofNat 8490)).toNat = 8490
  /-- No code point has one of `a`..`z` or U+017F (LATIN SMALL LETTER LONG S) as its
  upper case. -/
  upper_image : ∀ c : Char,
    ¬ (97 ≤ (upperRune c).toNat ∧ (upperRune c).toNat ≤ 122) ∧ (upperRune c).toNat ≠ 383
  /-- U+212A (KELVIN SIGN) lies in the orbit of `K`. -/
  fold_kelvin : foldRune (Char.ofNat 8490) = foldRune (Char.ofNat 75)
  /-- The orbit of an upper-case Basic Latin letter other than `K` holds the letter,
  its lower case and, for `S`, U+017F; nothing else. -/
  fold_orbit : ∀ x k : Char, 65 ≤ k.toNat → k.toNat ≤ 90 → k.toNat ≠ 75 →
    foldRune x = foldRune k →
    x.toNat = k.toNat ∨ x.toNat = k.toNat + 32 ∨ (k.toNat = 83 ∧ x.toNat = 383)

/-- Model of `strings.ToUpper`: the rune-wise image under `unicode.ToUpper`. -/
def ToUpper [CaseTables] (s : String) : String :=
  String.mk (s.data.map CaseTables.upperRune)

/-- Model of `strings.EqualFold`: the two strings have the same number of runes and
runes at equal positions lie in the same orbit of `unicode.SimpleFold`. -/
def EqualFold [CaseTables] (s t : String) : Bool :=
  s.data.map CaseTables.foldRune == t.data.map CaseTables.foldRune

/-- Model of `strings.Join`. -/
def Join (elems : List String) (sep : String) : String :=
  sep.intercalate elems

/-! ## Constants and resource documents -/

/-- Modelled from the spec: `constants.DefaultLimit`, the fixed default of the
`limit` parameter (the package `constants` is not part of the sources; the value is
the one the warning of `GetLimit` prints). -/
def DefaultLimit : Int := 50

/-- Modelled from the spec: `constants.DefaultOffset`, the default of the `offset`
parameter (the value the warning of `GetOffset` prints). -/
def DefaultOffset : Int := 0

/-- Modelled from the spec: `constants.DefaultSortDir`, the default of the `sortDir`
parameter (the value the warning of `GetSortDir` prints). -/
def DefaultSortDir : String := "desc"

def defaultSortKey : String := "ID"

def defaultBlockProfileName : String := "default_block"

def defaultFileProfileName : String := "default_file"

def typeBlock : String := "block"

def typeFile : String := "file"

def validKey : List String := ["limit", "offset", "sortDir", "sortKey"]

def typeDocks : String := "Docks"

def typePools : String := "Pools"

def typeProfiles : String := "Profiles"

def sortableKeysMap : List (String × List String) :=
  [ (typeDocks, ["ID", "NAME", "STATUS", "ENDPOINT", "DRIVERNAME", "DESCRIPTION"]),
    (typePools, ["ID", "NAME", "STATUS", "AVAILABILITYZONE", "DOCKID"]),
    (typeProfiles, ["ID", "NAME", "DESCRIPTION"]) ]

/-- Go's `sortableKeysMap[kind]`: the allow-list of the kind, the nil slice for an
unknown kind. -/
def sortableKeys (kind : String) : List String :=
  (List.lookup kind sortableKeysMap).getD []

/-- Modelled from the spec: `model.ProfileSpec` (the package `model` is not part of
the sources): identity and time stamps of the embedded base model, name,
description, storage type and the custom-property map. -/
structure ProfileSpec where
  Id : String
  CreatedAt : String
  UpdatedAt : String
  Name : String
  Description : String
  StorageType : String
  CustomProperties : List (String × String)
  deriving DecidableEq, Repr

/-- String form of the field of a profile that Go's reflective `FieldByName` finds
under `key`; `none` when the profile has no such field (or none with a string
form). -/
def ProfileSpec.fieldByName (p : ProfileSpec) (key : String) : Option String :=
  if key = "Id" then some p.Id
  else if key = "CreatedAt" then some p.CreatedAt
  else if key = "UpdatedAt" then some p.UpdatedAt
  else if key = "Name" then some p.Name
  else if key = "Description" then some p.Description
  else if key = "StorageType" then some p.StorageType
  else none

/-- Modelled from the spec: `model.DockSpec` (section 3): identity and time stamps,
name, description, status, driver name, endpoint, node id, type and metadata. -/
structure DockSpec where
  Id : String
  CreatedAt : String
  UpdatedAt : String
  Name : String
  Description : String
  Status : String
  DriverName : String
  Endpoint : String
  NodeId : String
  DockType : String
  Metadata : List (String × String)
  deriving DecidableEq, Repr

/-- Modelled from the spec: `model.StoragePoolSpec` (section 3): identity and time
stamps, name, description, status, availability zone, owning dock id, used capacity
and used flag. -/
structure StoragePoolSpec where
  Id : String
  CreatedAt : String
  UpdatedAt : String
  Name : String
  Description : String
  Status : String
  AvailabilityZone : String
  DockId : String
  UsedCapacity : Int
  Used : Bool
  deriving DecidableEq, Repr

/-! ## Query-parameter resolver (`etcd.go`) -/

/-- The Go type `map[string][]string` of the query parameters. -/
abbrev Params := List (String × List String)

/-- The resolved page specification. -/
structure Parameter where
  beginIdx : Int
  endIdx : Int
  sortDir : String
  sortKey : String
  deriving DecidableEq, Repr

def IsInArray [CaseTables] (e : String) (s : List String) : Bool :=
  s.any (fun v => EqualFold e v)

/-- Modelled from the spec: `utils.Contained` (the package `utils` is not part of
the sources): exact membership of a string in a list. -/
def Contained (key : String) (keys : List String) : Bool :=
  keys.contains key

def SelectOrNot (m : Params) : Bool :=
  m.any (fun kv => !Contained kv.1 validKey)

def GetLimit (m : Params) : Option Int :=
  match List.lookup "limit" m with
  | some v =>
    match v with
    | [] => none
    | v0 :: _ =>
      match Atoi v0 with
      | some limit => if limit < 0 then some DefaultLimit else some limit
      | none => some DefaultLimit
  | none => some DefaultLimit

def GetOffset (m : Params) (size : Int) : Option Int :=
  match List.lookup "offset" m with
  | some v =>
    match v with
    | [] => none
    | v0 :: _ =>
      match Atoi v0 with
      | some offset =>
        if offset < 0 ∨ offset > size then some DefaultOffset else some offset
      | none => some DefaultOffset
  | none => some DefaultOffset

def GetSortDir [CaseTables] (m : Params) : Option String :=
  match List.lookup "sortDir" m with
  | some v =>
    match v with
    | [] => none
    | sortDir :: _ =>
      if !EqualFold sortDir "desc" && !EqualFold sortDir "asc" then some DefaultSortDir
      else some sortDir
  | none => some DefaultSortDir

def GetSortKey [CaseTables] (m : Params) (sortKeys : List String) : Option String :=
  match List.lookup "sortKey" m with
  | some v =>
    match v with
    | [] => none
    | v0 :: _ =>
      let sortKey := ToUpper v0
      if !IsInArray sortKey sortKeys then some defaultSortKey else some sortKey
  | none => some defaultSortKey

def ParameterFilter [CaseTables] (m : Params) (size : Int) (sortKeys : List String) :
    Option Parameter :=
  match GetLimit m, GetOffset m size with
  | some limit, some offset =>
    let beginIdx := offset
    let endIdx := wrapInt (limit + offset)
    let endIdx := if limit = DefaultLimit ∨ endIdx > size then size else endIdx
    match GetSortDir m, GetSortKey m sortKeys with
    | some sortDir, some sortKey => some ⟨beginIdx, endIdx, sortDir, sortKey⟩
    | _, _ => none
  | _, _ => none

/-! ## Filter, sort, paginate (`etcd.go`, with the stages of `utils`) -/

/-- Modelled from the spec: `utils.ContainsIgnoreCase`, case-insensitive membership
of a string in a list. -/
def ContainsIgnoreCase [CaseTables] (a : List String) (x : String) : Bool :=
  a.any (fun n => EqualFold x n)

/-- Modelled from the spec: `utils.Filter` (section 4.3, step 1). Every key of the
parameters that is not one of `validKey` is a field-name filter; an element is kept
when, for each such key naming a field of the element, the string form of the field
case-insensitively equals the first supplied value. Keys that name no field are
ignored. `field` is the reflective field access of the element type. -/
def Filter {α : Type} [CaseTables] (field : α → String → Option String) (src : List α)
    (params : Params) : List α :=
  src.filter (fun x =>
    params.all (fun kv =>
      Contained kv.1 validKey ||
        (match field x kv.1, kv.2 with
         | some val, paramVal :: _ => EqualFold paramVal val
         | _, _ => true)))

/-- Modelled from the spec: `utils.Slice` (section 4.3, step 3). The elements from
index `offset` on, at most `limit` of them, the bounds clamped to the collection. -/
def Slice {α : Type} (input : List α) (offset limit : Int) : List α :=
  (input.drop offset.toNat).take limit.toNat

/-- The pipeline `FilterAndSort` of `etcd.go`. Its three stages `utils.Filter`,
`utils.Sort` and `utils.Slice` are arguments; `size` of the offset resolution is
`reflect.ValueOf(src).Len()`. -/
def FilterAndSort {α : Type} [CaseTables] (filterStage : List α → Params → List α)
    (sortStage : List α → String → String → List α)
    (sliceStage : List α → Int → Int → List α)
    (src : List α) (params : Params) (sortableKeys : List String) :
    Option (List α) :=
  let ret := filterStage src params
  let sorted : Option (List α) :=
    match (List.lookup "sortKey" params).getD [] with
    | k :: _ =>
      if ContainsIgnoreCase sortableKeys k then
        match GetSortDir params with
        | some sortDir => some (sortStage ret k sortDir)
        | none => none
      else some ret
    | [] => some ret
  match sorted with
  | some ret =>
    match GetOffset params (src.length : Int), GetLimit params with
    | some offset, some limit => some (sliceStage ret offset limit)
    | _, _ => none
  | none => none

/-! ## Key-path builder (`urls.go`) -/

def Etcd : Int := 0

def Client : Int := 1

/-- The function `CurrentVersion` of `urls.go`; the constant `constants.APIVersion`
it returns is not part of the sources and is the argument `APIVersion`. -/
def CurrentVersion (APIVersion : String) : String :=
  APIVersion

def generateURL (APIVersion resource : String) (urlType : Int) (tenantId : String)
    (ins : List String) : String :=
  if tenantId = "" then
    let value := [CurrentVersion APIVersion, resource]
    let value := value ++ ins
    Join value "/"
  else
    let value :=
      if urlType = Etcd then [CurrentVersion APIVersion, resource, tenantId]
      else [CurrentVersion APIVersion, tenantId, resource]
    let value := value ++ ins
    Join value "/"

def GenerateDockURL (APIVersion : String) (urlType : Int) (tenantId : String)
    (ins : List String) : String :=
  generateURL APIVersion "docks" urlType tenantId ins

def GeneratePoolURL (APIVersion : String) (urlType : Int) (tenantId : String)
    (ins : List String) : String :=
  generateURL APIVersion "pools" urlType tenantId ins

def GenerateProfileURL (APIVersion : String) (urlType : Int) (tenantId : String)
    (ins : List String) : String :=
  generateURL APIVersion "profiles" urlType tenantId ins

/-! ## Store client for profiles (`etcd.go`) -/

deriving instance DecidableEq for Except

/-- A Go `error` value: `errors.New`/`fmt.Errorf` give `generic`,
`model.NewNotFoundError` gives `notFound`. -/
inductive Error where
  | generic (msg : String)
  | notFound (msg : String)
  deriving DecidableEq, Repr

/-- The content of a key of the backend: the JSON text of a resource, identified
with the resource `json.Unmarshal` decodes it to, or a text `raw` that is not the
encoding of a resource (the empty string of an unset field included). -/
inductive Document where
  | raw (text : String)
  | dock (dck : DockSpec)
  | pool (pol : StoragePoolSpec)
  | profile (prf : ProfileSpec)
  deriving DecidableEq, Repr

/-- The request handed to the backend. -/
structure Request where
  Url : String
  Content : Document
  NewContent : Document
  deriving DecidableEq, Repr

/-- The response of the backend. -/
structure Response where
  Status : String
  Message : List Document
  Error : String
  deriving DecidableEq, Repr

/-- The backend operations embedded in `Client` (the Go interface with the methods
`Create`, `Get`, `List`, `Update`, `Delete`), over a backend state `σ`: a read
answers from the state, a write also gives the next state. -/
structure clientInterface (σ : Type) where
  Create : Request → σ → Response × σ
  Get : Request → σ → Response
  List : Request → σ → Response
  Update : Request → σ → Response × σ
  Delete : Request → σ → Response × σ

/-- `json.Marshal` of a profile; no value of the structure makes it fail. -/
def marshalProfile (prf : ProfileSpec) : Document :=
  Document.profile prf

/-- `json.Unmarshal` of a stored document into a profile; `none` is a decode
error. Documents of the other resource kinds live under other key paths and are
not read as profiles. -/
def unmarshalProfile (msg : Document) : Option ProfileSpec :=
  match msg with
  | Document.profile prf => some prf
  | _ => none

/-- The decoding loop of `ListProfiles`: the first message that does not decode
aborts the listing with the error text of the response. -/
def decodeProfiles (errText : String) : List Document → Except Error (List ProfileSpec)
  | [] => Except.ok []
  | msg :: rest =>
    match unmarshalProfile msg with
    | none => Except.error (Error.generic errText)
    | some prf =>
      match decodeProfiles errText rest with
      | Except.ok prfs => Except.ok (prf :: prfs)
      | Except.error err => Except.error err

def ListProfiles {σ : Type} (c : clientInterface σ) (APIVersion : String) (s : σ) :
    Except Error (List ProfileSpec) :=
  let dbReq : Request :=
    { Url := GenerateProfileURL APIVersion Etcd "" [],
      Content := Document.raw "", NewContent := Document.raw "" }
  let dbRes := c.List dbReq s
  if dbRes.Status ≠ "Success" then Except.error (Error.generic dbRes.Error)
  else if dbRes.Message.length = 0 then Except.ok []
  else decodeProfiles dbRes.Error dbRes.Message

def getProfileByName {σ : Type} (c : clientInterface σ) (APIVersion : String)
    (name : String) (s : σ) : Except Error ProfileSpec :=
  match ListProfiles c APIVersion s with
  | Except.error err => Except.error err
  | Except.ok profiles =>
    match profiles.find? (fun profile => profile.Name == name) with
    | some profile => Except.ok profile
    | none => Except.error (Error.notFound ("can\x27t find profile(name: " ++ name ++ ")"))

/-- `CreateProfile` of `etcd.go`. `newId` is the identifier `uuid.NewV4` would
return and `now` the formatted current time; the result is the returned pair and
the state of the backend after the call. -/
def CreateProfile {σ : Type} (c : clientInterface σ) (APIVersion : String)
    (newId now : String) (prf : ProfileSpec) (s : σ) :
    Except Error ProfileSpec × σ :=
  let prf := if prf.Id = "" then { prf with Id := newId } else prf
  let prf := if prf.CreatedAt = "" then { prf with CreatedAt := now } else prf
  match getProfileByName c APIVersion prf.Name s with
  | Except.ok _ =>
    (Except.error
      (Error.generic ("the profile name \x27" ++ prf.Name ++ "\x27 already exists")), s)
  | Except.error _ =>
    let prfBody := marshalProfile prf
    let dbReq : Request :=
      { Url := GenerateProfileURL APIVersion Etcd "" [prf.Id],
        Content := prfBody, NewContent := Document.raw "" }
    let dbRes := c.Create dbReq s
    if dbRes.1.Status ≠ "Success" then (Except.error (Error.generic dbRes.1.Error), dbRes.2)
    else (Except.ok prf, dbRes.2)

def GetProfile {σ : Type} (c : clientInterface σ) (APIVersion : String)
    (prfID : String) (s : σ) : Option (Except Error ProfileSpec) :=
  let dbReq : Request :=
    { Url := GenerateProfileURL APIVersion Etcd "" [prfID],
      Content := Document.raw "", NewContent := Document.raw "" }
  let dbRes := c.Get dbReq s
  if dbRes.Status ≠ "Success" then some (Except.error (Error.generic dbRes.Error))
  else
    match dbRes.Message with
    | [] => none
    | msg :: _ =>
      match unmarshalProfile msg with
      | none => some (Except.error (Error.generic dbRes.Error))
      | some prf => some (Except.ok prf)

def getProfileByNameAndType {σ : Type} (c : clientInterface σ) (APIVersion : String)
    (name storageType : String) (s : σ) : Except Error ProfileSpec :=
  match ListProfiles c APIVersion s with
  | Except.error err => Except.error err
  | Except.ok profiles =>
    match profiles.find?
        (fun profile => profile.Name == name && profile.StorageType == storageType) with
    | some profile => Except.ok profile
    | none =>
      Except.error (Error.notFound
        ("can\x27t find profile(name: " ++ name ++ ", storageType:" ++ storageType ++ ")"))

def GetDefaultProfile {σ : Type} (c : clientInterface σ) (APIVersion : String) (s : σ) :
    Except Error ProfileSpec :=
  getProfileByNameAndType c APIVersion defaultBlockProfileName typeBlock s

def GetDefaultProfileFileShare {σ : Type} (c : clientInterface σ) (APIVersion : String)
    (s : σ) : Except Error ProfileSpec :=
  getProfileByNameAndType c APIVersion defaultFileProfileName typeFile s

/-- Go's map assignment `m[k] = v` on a map held as an association list: the value
of a key that is present is replaced, a key that is absent is added. -/
def mapSet (m : List (String × String)) (k v : String) : List (String × String) :=
  match m with
  | [] => [(k, v)]
  | kv :: rest => if kv.1 = k then (k, v) :: rest else kv :: mapSet rest k v

/-- The loop `for k, v := range props { m[k] = v }`. -/
def mapSetAll (m props : List (String × String)) : List (String × String) :=
  props.foldl (fun acc kv => mapSet acc kv.1 kv.2) m

/-- Go's `delete(m, k)` on a map held as an association list. -/
def mapDelete (m : List (String × String)) (k : String) : List (String × String) :=
  m.filter (fun kv => kv.1 ≠ k)

/-- `UpdateProfile` of `etcd.go`. `now1` and `now2` are the formatted times of its
two readings of the clock; `none` is the run-time panic of `dbRes.Message[0]` on a
successful read without a message. -/
def UpdateProfile {σ : Type} (c : clientInterface σ) (APIVersion : String)
    (now1 now2 : String) (prfID : String) (input : ProfileSpec) (s : σ) :
    Option (Except Error ProfileSpec × σ) :=
  match GetProfile c APIVersion prfID s with
  | none => none
  | some (Except.error err) => some (Except.error err, s)
  | some (Except.ok prf) =>
    let prf := if input.Name ≠ "" then { prf with Name := input.Name } else prf
    let prf :=
      if input.Description ≠ "" then { prf with Description := input.Description } else prf
    let prf := { prf with UpdatedAt := now1 }
    let prf :=
      if input.CustomProperties.length ≠ 0 then
        { prf with
          CustomProperties := mapSetAll prf.CustomProperties input.CustomProperties }
      else prf
    let prf := { prf with UpdatedAt := now2 }
    let prfBody := marshalProfile prf
    let dbReq : Request :=
      { Url := GenerateProfileURL APIVersion Etcd "" [prfID],
        Content := Document.raw "", NewContent := prfBody }
    let dbRes := c.Update dbReq s
    if dbRes.1.Status ≠ "Success" then
      some (Except.error (Error.generic dbRes.1.Error), dbRes.2)
    else some (Except.ok prf, dbRes.2)

/-- `AddCustomProperty` of `etcd.go`. `now` is the formatted current time it stamps;
`newId` and `createdAt` are what `CreateProfile` would draw for a profile without
identity or creation time. The result is the returned pair and the state of the
backend after the call; `none` is the panic of `GetProfile`. -/
def AddCustomProperty {σ : Type} (c : clientInterface σ) (APIVersion : String)
    (newId createdAt now : String) (prfID : String) (ext : List (String × String))
    (s : σ) : Option (Except Error (List (String × String)) × σ) :=
  match GetProfile c APIVersion prfID s with
  | none => none
  | some (Except.error err) => some (Except.error err, s)
  | some (Except.ok prf) =>
    let prf := { prf with CustomProperties := mapSetAll prf.CustomProperties ext }
    let prf := { prf with UpdatedAt := now }
    match CreateProfile c APIVersion newId createdAt prf s with
    | (Except.error err, s1) => some (Except.error err, s1)
    | (Except.ok created, s1) => some (Except.ok created.CustomProperties, s1)

/-- `RemoveCustomProperty` of `etcd.go`, with the same conventions; the result is the
returned error, `none` for `nil`. -/
def RemoveCustomProperty {σ : Type} (c : clientInterface σ) (APIVersion : String)
    (newId createdAt : String) (prfID customKey : String) (s : σ) :
    Option (Option Error × σ) :=
  match GetProfile c APIVersion prfID s with
  | none => none
  | some (Except.error err) => some (some err, s)
  | some (Except.ok prf) =>
    let prf := { prf with CustomProperties := mapDelete prf.CustomProperties customKey }
    match CreateProfile c APIVersion newId createdAt prf s with
    | (Except.error err, s1) => some (some err, s1)
    | (Except.ok _, s1) => some (none, s1)

/-! ## Store client for pools (`etcd.go`) -/

/-- `json.Marshal` of a pool; no value of the structure makes it fail. -/
def marshalPool (pol : StoragePoolSpec) : Document :=
  Document.pool pol

/-- `json.Unmarshal` of a stored document into a pool; `none` is a decode error. -/
def unmarshalPool (msg : Document) : Option StoragePoolSpec :=
  match msg with
  | Document.pool pol => some pol
  | _ => none

def GetPool {σ : Type} (c : clientInterface σ) (APIVersion : String)
    (polID : String) (s : σ) : Option (Except Error StoragePoolSpec) :=
  let dbReq : Request :=
    { Url := GeneratePoolURL APIVersion Etcd "" [polID],
      Content := Document.raw "", NewContent := Document.raw "" }
  let dbRes := c.Get dbReq s
  if dbRes.Status ≠ "Success" then some (Except.error (Error.generic dbRes.Error))
  else
    match dbRes.Message with
    | [] => none
    | msg :: _ =>
      match unmarshalPool msg with
      | none => some (Except.error (Error.generic dbRes.Error))
      | some pol => some (Except.ok pol)

/-- `UpdatePool` of `etcd.go`. `now` is the formatted current time; `usedCapacity`
and `used` are the two arguments the body never reads. -/
def UpdatePool {σ : Type} (c : clientInterface σ) (APIVersion : String) (now : String)
    (polID name desp : String) (_usedCapacity : Int) (_used : Bool) (s : σ) :
    Option (Except Error StoragePoolSpec × σ) :=
  match GetPool c APIVersion polID s with
  | none => none
  | some (Except.error err) => some (Except.error err, s)
  | some (Except.ok pol) =>
    let pol := if name ≠ "" then { pol with Name := name } else pol
    let pol := if desp ≠ "" then { pol with Description := desp } else pol
    let pol := { pol with UpdatedAt := now }
    let polBody := marshalPool pol
    let dbReq : Request :=
      { Url := GeneratePoolURL APIVersion Etcd "" [polID],
        Content := Document.raw "", NewContent := polBody }
    let dbRes := c.Update dbReq s
    if dbRes.1.Status ≠ "Success" then
      some (Except.error (Error.generic dbRes.1.Error), dbRes.2)
    else some (Except.ok pol, dbRes.2)

/-! ## A key-value backend -/

/-- Modelled from the spec: the state of the backing key-value service (section 6),
the stored documents with their key paths, in the order they were written. -/
abbrev Store := List (String × Document)

/-- Modelled from the spec: the backing key-value service (section 6; its client is
not part of the sources). `Create` writes a document under a key path that holds
none and fails otherwise, `Get` reads one key, `List` reads every key that extends
the given path, `Update` replaces the document of an existing key, `Delete` removes
an existing key. -/
def kvBackend : clientInterface Store where
  Create := fun req s =>
    if (List.lookup req.Url s).isSome then
      (⟨"Failure", [], "key already exists"⟩, s)
    else (⟨"Success", [], ""⟩, s ++ [(req.Url, req.Content)])
  Get := fun req s =>
    match List.lookup req.Url s with
    | some doc => ⟨"Success", [doc], ""⟩
    | none => ⟨"Failure", [], "key not found"⟩
  List := fun req s =>
    ⟨"Success", (s.filter (fun kv => req.Url.data.isPrefixOf kv.1.data)).map Prod.snd, ""⟩
  Update := fun req s =>
    if (List.lookup req.Url s).isSome then
      (⟨"Success", [], ""⟩,
        s.map (fun kv => if kv.1 = req.Url then (kv.1, req.NewContent) else kv))
    else (⟨"Failure", [], "key not found"⟩, s)
  Delete := fun req s =>
    if (List.lookup req.Url s).isSome then
      (⟨"Success", [], ""⟩, s.filter (fun kv => kv.1 ≠ req.Url))
    else (⟨"Failure", [], "key not found"⟩, s)


/-! ## A table for the examples -/

/-- An upper-case table for evaluating the examples: it is `unicode.ToUpper` on the
Basic Latin block, on U+0131 (LATIN SMALL LETTER DOTLESS I, upper case `I`), on
U+017F (LATIN SMALL LETTER LONG S, upper case `S`) and on U+212A (KELVIN SIGN, its
own upper case), and it leaves every other code point as it is. The examples hold
strings of those code points only. -/
def basicLatinUpper (c : Char) : Char :=
  if 97 ≤ c.toNat ∧ c.toNat ≤ 122 then Char.ofNat (c.toNat - 32)
  else if c.toNat = 305 then Char.ofNat 73
  else if c.toNat = 383 then Char.ofNat 83
  else c

/-- A folding table for evaluating the examples: `A`..`Z` fold with `a`..`z`, U+017F
with `S` and `s`, U+212A with `K` and `k`, as under `unicode.SimpleFold`; every
other code point is left alone in its orbit. -/
def basicLatinFold (c : Char) : Char :=
  if 65 ≤ c.toNat ∧ c.toNat ≤ 90 then Char.ofNat (c.toNat + 32)
  else if c.toNat = 383 then Char.ofNat 115
  else if c.toNat = 8490 then Char.ofNat 107
  else c

/-- The table of the examples is a case table: it has the five facts of the Unicode
tables that `CaseTables` records. It is no instance: the general theorems hold for
every case table, and each example names this table where it evaluates one. -/
def basicLatinTables : CaseTables where
  upperRune := basicLatinUpper
  foldRune := basicLatinFold
  upper_of_lower := by
    intro c h1 h2
    have hsmall : ∀ n : Nat, n < 55296 → (Char.ofNat n).toNat = n := by
      intro n h
      have hv : n.isValidChar := Or.inl h
      simp only [Char.ofNat, hv, Char.toNat, Char.ofNatAux, dite_true]
      rfl
    unfold basicLatinUpper
    rw [if_pos ⟨h1, h2⟩, hsmall _ (by omega)]
  upper_kelvin := by decide
  upper_image := by
    intro c
    have hsmall : ∀ n : Nat, n < 55296 → (Char.ofNat n).toNat = n := by
      intro n h
      have hv : n.isValidChar := Or.inl h
      simp only [Char.ofNat, hv, Char.toNat, Char.ofNatAux, dite_true]
      rfl
    unfold basicLatinUpper
    split
    · rw [hsmall _ (by omega)]; omega
    · split
      · rw [hsmall _ (by omega)]; omega
      · split
        · rw [hsmall _ (by omega)]; omega
        · omega
  fold_kelvin := by decide
  fold_orbit := by
    intro x k h1 h2 h3 h
    have hsmall : ∀ n : Nat, n < 55296 → (Char.ofNat n).toNat = n := by
      intro n h
      have hv : n.isValidChar := Or.inl h
      simp only [Char.ofNat, hv, Char.toNat, Char.ofNatAux, dite_true]
      rfl
    have hx : (basicLatinFold x).toNat =
        if 65 ≤ x.toNat ∧ x.toNat ≤ 90 then x.toNat + 32
        else if x.toNat = 383 then 115
        else if x.toNat = 8490 then 107 else x.toNat := by
      unfold basicLatinFold
      split
      · rw [hsmall _ (by omega)]
      · split
        · rw [hsmall _ (by omega)]
        · split
          · rw [hsmall _ (by omega)]
          · rfl
    have hk : (basicLatinFold k).toNat = k.toNat + 32 := by
      unfold basicLatinFold
      rw [if_pos ⟨h1, h2⟩, hsmall _ (by omega)]
    have h4 := congrArg Char.toNat h
    rw [hx, hk] at h4
    split_ifs at h4 <;> omega

/-- The key `key`, when present in the parameters, carries at least one value (the
QueryParameters of the data model map a name to one or more values). -/
def HasValue (m : Params) (key : String) : Prop :=
  List.lookup key m ≠ some []

instance (m : Params) (key : String) : Decidable (HasValue m key) := by
  unfold HasValue; exact inferInstance

def exampleProfiles : List ProfileSpec :=
  [ ⟨"1", "", "", "a", "", "block", []⟩,
    ⟨"2", "", "", "b", "", "block", []⟩,
    ⟨"3", "", "", "c", "", "block", []⟩ ]

def exampleParams : Params :=
  [("Name", ["b"]), ("offset", ["2"])]

/-- The filter stage of the examples: `Filter` on profiles, over the table of the
examples. -/
def exampleFilter : List ProfileSpec → Params → List ProfileSpec :=
  @Filter ProfileSpec basicLatinTables ProfileSpec.fieldByName

/-- A sort stage that leaves the order alone (used where the sort stage is skipped). -/
def keepOrder (input : List ProfileSpec) (_sortKey _sortDir : String) : List ProfileSpec :=
  input

/-- The word `key` is made of upper-case Basic Latin letters other than `K`. -/
def IsUpperNoK (key : String) : Prop :=
  ∀ k ∈ key.data, 65 ≤ k.toNat ∧ k.toNat ≤ 90 ∧ k.toNat ≠ 75

instance (key : String) : Decidable (IsUpperNoK key) := by
  unfold IsUpperNoK; exact inferInstance

/-- The three URL generators with the resource kind each one addresses. -/
def urlGenerators : List (String × (String → Int → String → List String → String)) :=
  [("docks", GenerateDockURL), ("pools", GeneratePoolURL), ("profiles", GenerateProfileURL)]

def goldProfile : ProfileSpec :=
  ⟨"", "", "", "gold", "", "block", []⟩

def goldStored : ProfileSpec :=
  ⟨"id1", "t1", "", "gold", "", "block", []⟩

def goldStore : Store :=
  [("v1beta/profiles/id1", Document.profile goldStored)]

/-- The profile with its identity replaced by `ids` of it. -/
def relabel (ids : ProfileSpec → String) (p : ProfileSpec) : ProfileSpec :=
  { p with Id := ids p }

def silverInput : ProfileSpec :=
  ⟨"zz", "", "", "", "silver", "file", [("tier", "fast")]⟩

def defaultBlock : ProfileSpec :=
  ⟨"id7", "t7", "", "default_block", "", "block", []⟩

def defaultStore : Store :=
  [ ("v1beta/profiles/id1", Document.profile goldStored),
    ("v1beta/profiles/id7", Document.profile defaultBlock) ]

def brokenStore : Store :=
  [ ("v1beta/profiles/id1", Document.profile goldStored),
    ("v1beta/profiles/bad", Document.raw "not json") ]

/-- The profile `CreateProfile` works on after its first two statements: the
identity and the creation time are filled in where they are empty. -/
def stampedProfile (newId now : String) (prf : ProfileSpec) : ProfileSpec :=
  { prf with
    Id := if prf.Id = "" then newId else prf.Id,
    CreatedAt := if prf.CreatedAt = "" then now else prf.CreatedAt }

/-- The request by which `CreateProfile` writes the profile `prf`. -/
def createRequest (APIVersion : String) (prf : ProfileSpec) : Request :=
  { Url := GenerateProfileURL APIVersion Etcd "" [prf.Id],
    Content := Document.profile prf, NewContent := Document.raw "" }

def goldSecond : ProfileSpec :=
  ⟨"id2", "t2", "", "gold", "", "block", []⟩

/-! ## Discovery and report (`discovery.go`) -/

/-- A value handed to `Register` as `interface{}`: a dock, a pool, or a value of any
other type. -/
inductive Resource where
  | dock (dck : DockSpec)
  | pool (pol : StoragePoolSpec)
  | other
  deriving DecidableEq, Repr

/-- The two methods of the interface `db.Client` that `Register` calls, over a
database state `σ`: each gives the returned pair and the state after the call. -/
structure dbClient (σ : Type) where
  CreateDock : DockSpec → σ → Except Error DockSpec × σ
  CreatePool : StoragePoolSpec → σ → Except Error StoragePoolSpec × σ

/-- `DockRegister.Register` of `discovery.go`; the result is the returned error,
`none` for `nil`, and the state of the database after the call. -/
def Register {σ : Type} (c : dbClient σ) (input : Resource) (s : σ) : Option Error × σ :=
  match input with
  | Resource.dock dck =>
    match c.CreateDock dck s with
    | (Except.error err, s1) => (some err, s1)
    | (Except.ok _, s1) => (none, s1)
  | Resource.pool pol =>
    match c.CreatePool pol s with
    | (Except.error err, s1) => (some err, s1)
    | (Except.ok _, s1) => (none, s1)
  | Resource.other => (some (Error.generic "Resource type is not supported!"), s)

/-- The first loop of `provisionDockDiscoverer.Report`: the docks are registered in
order, a registration that fails ends the loop with its error. -/
def reportDocks {σ : Type} (c : dbClient σ) : List DockSpec → σ → Option Error × σ
  | [], s => (none, s)
  | dck :: rest, s =>
    match Register c (Resource.dock dck) s with
    | (some err, s1) => (some err, s1)
    | (none, s1) => reportDocks c rest s1

/-- The second loop of `provisionDockDiscoverer.Report`, entered with the value
`err` of the error variable: each iteration first leaves the loop when `err` is not
`nil`, then assigns to `err` the outcome of registering the pool. -/
def reportPools {σ : Type} (c : dbClient σ) :
    Option Error → List StoragePoolSpec → σ → Option Error × σ
  | err, [], s => (err, s)
  | some err, _ :: _, s => (some err, s)
  | none, pol :: rest, s =>
    match Register c (Resource.pool pol) s with
    | (err1, s1) => reportPools c err1 rest s1

/-- `provisionDockDiscoverer.Report` of `discovery.go`, for the docks `dcks` and the
pools `pols` the discoverer holds. -/
def Report {σ : Type} (c : dbClient σ) (dcks : List DockSpec) (pols : List StoragePoolSpec)
    (s : σ) : Option Error × σ :=
  match reportDocks c dcks s with
  | (err, s1) => reportPools c err pols s1

/-- The client `c` with a record of its calls: the state carries the list of the
resources whose creation was asked for, in the order of the calls. -/
def tracedClient {σ : Type} (c : dbClient σ) : dbClient (σ × List Resource) where
  CreateDock := fun dck st =>
    ((c.CreateDock dck st.1).1, ((c.CreateDock dck st.1).2, st.2 ++ [Resource.dock dck]))
  CreatePool := fun pol st =>
    ((c.CreatePool pol st.1).1, ((c.CreatePool pol st.1).2, st.2 ++ [Resource.pool pol]))

/-- Specification of a report, in the words of the claim: the registrations are
attempted in order and the run stops at the first one that fails. The result is the
error of that registration (`none` when none fails), the state reached, and the
resources whose registration was attempted. -/
def registerInOrder {σ : Type} (register : Resource → σ → Option Error × σ) :
    List Resource → σ → Option Error × σ × List Resource
  | [], s => (none, s, [])
  | r :: rest, s =>
    match register r s with
    | (some err, s1) => (some err, s1, [r])
    | (none, s1) =>
      ((registerInOrder register rest s1).1, (registerInOrder register rest s1).2.1,
        r :: (registerInOrder register rest s1).2.2)

/-- Every registration of the list succeeds when they are run in order from the
state `s`. -/
def allSucceed {σ : Type} (register : Resource → σ → Option Error × σ) :
    List Resource → σ → Prop
  | [], _ => True
  | r :: rest, s => (register r s).1 = none ∧ allSucceed register rest (register r s).2

/-- A database client that accepts a dock or a pool unless its id is `bad`, and
keeps the ids it accepted. -/
def pickyClient : dbClient (List String) where
  CreateDock := fun dck s =>
    if dck.Id = "bad" then (Except.error (Error.generic "dock refused"), s)
    else (Except.ok dck, s ++ [dck.Id])
  CreatePool := fun pol s =>
    if pol.Id = "bad" then (Except.error (Error.generic "pool refused"), s)
    else (Except.ok pol, s ++ [pol.Id])

def dockOf (id : String) : DockSpec :=
  ⟨id, "", "", id, "", "", "", "", "", "provisioner", []⟩

def poolOf (id : String) : StoragePoolSpec :=
  ⟨id, "", "", id, "", "", "", "", 0, false⟩

def poolStored : StoragePoolSpec :=
  ⟨"p1", "t1", "", "pool1", "first", "available", "az1", "d1", 40, true⟩

def poolStore : Store :=
  [("v1beta/pools/p1", Document.pool poolStored)]

theorem GetOffset_isSome (m : Params) (size : Int) (h : HasValue m "offset") :
    ∃ offset, GetOffset m size = some offset := by
  unfold HasValue at h
  unfold GetOffset
  split
  · split
    · simp_all
    · split
      · split <;> exact ⟨_, rfl⟩
      · exact ⟨_, rfl⟩
  · exact ⟨_, rfl⟩

theorem GetLimit_isSome (m : Params) (h : HasValue m "limit") :
    ∃ limit, GetLimit m = some limit := by
  unfold HasValue at h
  unfold GetLimit
  split
  · split
    · simp_all
    · split
      · split <;> exact ⟨_, rfl⟩
      · exact ⟨_, rfl⟩
  · exact ⟨_, rfl⟩

theorem GetSortDir_isSome [CaseTables] (m : Params) (h : HasValue m "sortDir") :
    ∃ sortDir, GetSortDir m = some sortDir := by
  unfold HasValue at h
  unfold GetSortDir
  split
  · split
    · simp_all
    · split <;> exact ⟨_, rfl⟩
  · exact ⟨_, rfl⟩

theorem GetSortKey_isSome [CaseTables] (m : Params) (sortKeys : List String) (h : HasValue m "sortKey") :
    ∃ sortKey, GetSortKey m sortKeys = some sortKey := by
  unfold HasValue at h
  unfold GetSortKey
  split
  · split
    · simp_all
    · simp only []
      split <;> exact ⟨_, rfl⟩
  · exact ⟨_, rfl⟩

theorem GetLimit_nonneg (m : Params) (limit : Int) (h : GetLimit m = some limit) :
    0 ≤ limit := by
  unfold GetLimit at h
  split at h
  · split at h
    · simp at h
    · split at h
      · split at h
        · simp [DefaultLimit] at h; omega
        · simp at h; omega
      · simp [DefaultLimit] at h; omega
  · simp [DefaultLimit] at h; omega

theorem GetOffset_nonneg (m : Params) (size offset : Int)
    (h : GetOffset m size = some offset) : 0 ≤ offset := by
  unfold GetOffset at h
  split at h
  · split at h
    · simp at h
    · split at h
      · split at h
        · simp [DefaultOffset] at h; omega
        · simp at h; omega
      · simp [DefaultOffset] at h; omega
  · simp [DefaultOffset] at h; omega

theorem char_eq_of_toNat_eq (c d : Char) (h : c.toNat = d.toNat) : c = d := by
  have := congrArg Char.ofNat h
  simpa using this

/-- An upper-cased rune in the folding orbit of an upper-case Basic Latin letter
other than `K` is that letter: the orbit holds the letter, its lower case and, for
`S`, the long s, and upper-casing leaves no lower-case letter and no long s behind. -/
theorem upperRune_eq_of_fold_eq [CaseTables] (c k : Char)
    (hk : 65 ≤ k.toNat ∧ k.toNat ≤ 90 ∧ k.toNat ≠ 75)
    (h : CaseTables.foldRune (CaseTables.upperRune c) = CaseTables.foldRune k) :
    CaseTables.upperRune c = k := by
  apply char_eq_of_toNat_eq
  have himg := CaseTables.upper_image c
  rcases CaseTables.fold_orbit (CaseTables.upperRune c) k hk.1 hk.2.1 hk.2.2 h with
    h1 | h1 | h1
  · exact h1
  · omega
  · omega

theorem map_upperRune_eq_of_fold_eq [CaseTables] (l ks : List Char)
    (hks : ∀ k ∈ ks, 65 ≤ k.toNat ∧ k.toNat ≤ 90 ∧ k.toNat ≠ 75)
    (h : (l.map CaseTables.upperRune).map CaseTables.foldRune = ks.map CaseTables.foldRune) :
    l.map CaseTables.upperRune = ks := by
  induction l generalizing ks with
  | nil =>
    cases ks with
    | nil => rfl
    | cons k ks => simp at h
  | cons c l ih =>
    cases ks with
    | nil => simp at h
    | cons k ks =>
      simp only [List.map_cons, List.cons.injEq] at h ⊢
      exact ⟨upperRune_eq_of_fold_eq c k (hks k (List.mem_cons_self _ _)) h.1,
        ih ks (fun x hx => hks x (List.mem_cons_of_mem _ hx)) h.2⟩

theorem ToUpper_eq_of_EqualFold [CaseTables] (v key : String) (hkey : IsUpperNoK key)
    (h : EqualFold (ToUpper v) key = true) : ToUpper v = key := by
  have h2 : (v.data.map CaseTables.upperRune).map CaseTables.foldRune
      = key.data.map CaseTables.foldRune := by
    simpa [EqualFold, ToUpper] using h
  have := map_upperRune_eq_of_fold_eq v.data key.data hkey h2
  unfold ToUpper
  rw [this]

theorem IsInArray_iff [CaseTables] (e : String) (s : List String) :
    IsInArray e s = true ↔ ∃ key ∈ s, EqualFold e key = true := by
  simp [IsInArray, List.any_eq_true]

/-- The result of `GetSortKey` is the default key or the upper-cased first value,
the latter only when it case-insensitively equals an element of the allow-list. -/
theorem GetSortKey_cases [CaseTables] (m : Params) (sortKeys : List String) (r : String)
    (h : GetSortKey m sortKeys = some r) :
    r = "ID" ∨ ∃ v0 key, r = ToUpper v0 ∧ key ∈ sortKeys ∧ EqualFold (ToUpper v0) key = true := by
  cases hk : List.lookup "sortKey" m with
  | none =>
    simp [GetSortKey, hk, defaultSortKey] at h
    exact Or.inl h.symm
  | some v =>
    cases v with
    | nil => simp [GetSortKey, hk] at h
    | cons v0 rest =>
      by_cases hin : IsInArray (ToUpper v0) sortKeys = true
      · simp [GetSortKey, hk, hin] at h
        obtain ⟨key, hmem, heq⟩ := (IsInArray_iff _ _).1 hin
        exact Or.inr ⟨v0, key, h.symm, hmem, heq⟩
      · simp [GetSortKey, hk, hin, defaultSortKey] at h
        exact Or.inl h.symm

/-- For an allow-list of upper-case Basic Latin words without `K` that holds `ID`,
the result of `GetSortKey` is a member of the allow-list. -/
theorem GetSortKey_mem [CaseTables] (m : Params) (sortKeys : List String) (hID : "ID" ∈ sortKeys)
    (hkeys : ∀ key ∈ sortKeys, IsUpperNoK key) (r : String)
    (h : GetSortKey m sortKeys = some r) : r ∈ sortKeys := by
  rcases GetSortKey_cases m sortKeys r h with h1 | ⟨v0, key, hr, hmem, heq⟩
  · rw [h1]; exact hID
  · rw [hr, ToUpper_eq_of_EqualFold v0 key (hkeys key hmem) heq]
    exact hmem

/-- C1, as stated, fails. Three profiles, the filter `Name=b` keeps one, the offset
is `2`: the pipeline resolves the offset against the three unfiltered elements and
slices from `2` (an empty page), whereas the offset resolved against the one
element left by the filter is `0` (a page holding that element). -/
theorem FilterAndSort_offset_not_post_filter :
    @FilterAndSort ProfileSpec basicLatinTables exampleFilter keepOrder Slice exampleProfiles
        exampleParams (sortableKeys typeProfiles)
      = some (Slice (exampleFilter exampleProfiles exampleParams) 2 50)
    ∧ GetOffset exampleParams
        ((exampleFilter exampleProfiles exampleParams).length : Int)
      = some 0
    ∧ GetLimit exampleParams = some 50
    ∧ @FilterAndSort ProfileSpec basicLatinTables exampleFilter keepOrder Slice exampleProfiles
        exampleParams (sortableKeys typeProfiles)
      ≠ some (Slice (exampleFilter exampleProfiles exampleParams) 0 50) := by
  decide

/-- C1, amended. For parameters whose `offset`, `limit` and `sortDir` keys carry at
least one value each, and whatever the three stages are, the offset `FilterAndSort`
hands to the pagination stage is `GetOffset(params, n)` with `n` the length of
`src`, the collection before the filter stage, and the limit is `GetLimit(params)`:
there are a collection `ret`, an offset and a limit, the same for every pagination
stage, such that the result is that stage applied to them. -/
theorem FilterAndSort_offset_unfiltered_size [CaseTables] {α : Type}
    (filterStage : List α → Params → List α)
    (sortStage : List α → String → String → List α)
    (src : List α) (params : Params) (sortableKeys : List String)
    (hOffset : HasValue params "offset") (hLimit : HasValue params "limit")
    (hDir : HasValue params "sortDir") :
    ∃ ret offset limit,
      GetOffset params (src.length : Int) = some offset ∧
      GetLimit params = some limit ∧
      ∀ sliceStage : List α → Int → Int → List α,
        FilterAndSort filterStage sortStage sliceStage src params sortableKeys
          = some (sliceStage ret offset limit) := by
  obtain ⟨offset, hO⟩ := GetOffset_isSome params (src.length : Int) hOffset
  obtain ⟨limit, hL⟩ := GetLimit_isSome params hLimit
  obtain ⟨sortDir, hD⟩ := GetSortDir_isSome params hDir
  cases hk : (List.lookup "sortKey" params).getD [] with
  | nil =>
    refine ⟨filterStage src params, offset, limit, hO, hL, ?_⟩
    intro sliceStage
    simp [FilterAndSort, hk, hO, hL]
  | cons k rest =>
    by_cases hc : ContainsIgnoreCase sortableKeys k = true
    · refine ⟨sortStage (filterStage src params) k sortDir, offset, limit, hO, hL, ?_⟩
      intro sliceStage
      simp [FilterAndSort, hk, hO, hL, hD, hc]
    · refine ⟨filterStage src params, offset, limit, hO, hL, ?_⟩
      intro sliceStage
      simp [FilterAndSort, hk, hO, hL, hc]

/-- The amended C1 at the three example profiles with the filter `Name=b` and the
offset `2`. -/
theorem FilterAndSort_offset_unfiltered_size_witness :
    ∃ ret offset limit,
      GetOffset exampleParams ((exampleProfiles.length : Nat) : Int) = some offset ∧
      GetLimit exampleParams = some limit ∧
      ∀ sliceStage : List ProfileSpec → Int → Int → List ProfileSpec,
        @FilterAndSort ProfileSpec basicLatinTables exampleFilter keepOrder sliceStage
          exampleProfiles exampleParams (sortableKeys typeProfiles)
          = some (sliceStage ret offset limit) :=
  @FilterAndSort_offset_unfiltered_size basicLatinTables ProfileSpec exampleFilter keepOrder
    exampleProfiles exampleParams (sortableKeys typeProfiles)
    (by decide) (by decide) (by decide)

/-- C2. With the three stages taken as given functions, and `offset`, `limit` the
values of `GetOffset(params, len(src))` and `GetLimit(params)`: `FilterAndSort`
returns `Slice(Sort(Filter(src, params), k, GetSortDir(params)), offset, limit)`
when the parameters have a `sortKey` whose first value `k` case-insensitively equals
an element of the sortable-key list, and `Slice(Filter(src, params), offset, limit)`
otherwise (no `sortKey`, or one that is not in the list; no default sort key is
applied). The filter runs first, the sort on its result, the slice last. A result
is returned whenever the `offset`, `limit` and `sortDir` keys carry at least one
value each. -/
theorem FilterAndSort_pipeline [CaseTables] {α : Type}
    (filterStage : List α → Params → List α)
    (sortStage : List α → String → String → List α)
    (sliceStage : List α → Int → Int → List α)
    (src : List α) (params : Params) (sortableKeys : List String) :
    (∀ k rest sortDir offset limit,
      List.lookup "sortKey" params = some (k :: rest) →
      (∃ key ∈ sortableKeys, EqualFold k key = true) →
      GetSortDir params = some sortDir →
      GetOffset params (src.length : Int) = some offset →
      GetLimit params = some limit →
      FilterAndSort filterStage sortStage sliceStage src params sortableKeys
        = some (sliceStage (sortStage (filterStage src params) k sortDir) offset limit)) ∧
    (∀ offset limit,
      (List.lookup "sortKey" params = none ∨ List.lookup "sortKey" params = some [] ∨
        ∃ k rest, List.lookup "sortKey" params = some (k :: rest) ∧
          ¬ ∃ key ∈ sortableKeys, EqualFold k key = true) →
      GetOffset params (src.length : Int) = some offset →
      GetLimit params = some limit →
      FilterAndSort filterStage sortStage sliceStage src params sortableKeys
        = some (sliceStage (filterStage src params) offset limit)) ∧
    (HasValue params "offset" → HasValue params "limit" → HasValue params "sortDir" →
      ∃ result,
        FilterAndSort filterStage sortStage sliceStage src params sortableKeys
          = some result) := by
  refine ⟨?_, ?_, ?_⟩
  · intro k rest sortDir offset limit hk hc hD hO hL
    have hc2 : ContainsIgnoreCase sortableKeys k = true := by
      simpa [ContainsIgnoreCase, List.any_eq_true] using hc
    simp [FilterAndSort, hk, hO, hL, hD, hc2]
  · intro offset limit hk hO hL
    rcases hk with hk | hk | ⟨k, rest, hk, hc⟩
    · simp [FilterAndSort, hk, hO, hL]
    · simp [FilterAndSort, hk, hO, hL]
    · have hc2 : ContainsIgnoreCase sortableKeys k = false := by
        cases h : ContainsIgnoreCase sortableKeys k with
        | false => rfl
        | true =>
          exfalso; apply hc
          simpa [ContainsIgnoreCase, List.any_eq_true] using h
      simp [FilterAndSort, hk, hO, hL, hc2]
  · intro hOffset hLimit hDir
    obtain ⟨offset, hO⟩ := GetOffset_isSome params (src.length : Int) hOffset
    obtain ⟨limit, hL⟩ := GetLimit_isSome params hLimit
    obtain ⟨sortDir, hD⟩ := GetSortDir_isSome params hDir
    cases hk : (List.lookup "sortKey" params).getD [] with
    | nil => simp [FilterAndSort, hk, hO, hL]
    | cons k rest =>
      by_cases hc : ContainsIgnoreCase sortableKeys k = true
      · simp [FilterAndSort, hk, hO, hL, hD, hc]
      · simp [FilterAndSort, hk, hO, hL, hc]

/-- C2 at the three example profiles: once with a sortable `sortKey`, once without a
`sortKey`. -/
theorem FilterAndSort_pipeline_witness :
    @FilterAndSort ProfileSpec basicLatinTables exampleFilter keepOrder Slice exampleProfiles
        [("sortKey", ["name"]), ("sortDir", ["asc"])] (sortableKeys typeProfiles)
      = some (Slice (keepOrder (exampleFilter exampleProfiles
          [("sortKey", ["name"]), ("sortDir", ["asc"])]) "name" "asc") 0 50)
    ∧ @FilterAndSort ProfileSpec basicLatinTables exampleFilter keepOrder Slice exampleProfiles
        exampleParams (sortableKeys typeProfiles)
      = some (Slice (exampleFilter exampleProfiles exampleParams) 2 50) :=
  ⟨(@FilterAndSort_pipeline basicLatinTables ProfileSpec exampleFilter keepOrder Slice
      exampleProfiles [("sortKey", ["name"]), ("sortDir", ["asc"])]
      (sortableKeys typeProfiles)).1 "name" [] "asc" 0 50 (by decide)
      ⟨"NAME", by decide, by decide⟩ (by decide) (by decide) (by decide),
   (@FilterAndSort_pipeline basicLatinTables ProfileSpec exampleFilter keepOrder Slice
      exampleProfiles exampleParams (sortableKeys typeProfiles)).2.1 2 50
      (Or.inl (by decide)) (by decide) (by decide)⟩

/-- C3, as stated, fails. For `limit=9223372036854775807` (the largest `int`), `offset=1`
and a collection of 5 elements the limit is not the default, the sum `limit + offset`
wraps around to `-2^63`, which is not above the size, and stays the end index:
`endIdx` is `-9223372036854775808`, whereas `min(limit + offset, size)` is 5. -/
theorem ParameterFilter_endIdx_overflow :
    GetLimit [("limit", ["9223372036854775807"]), ("offset", ["1"])]
      = some 9223372036854775807
    ∧ GetOffset [("limit", ["9223372036854775807"]), ("offset", ["1"])] 5 = some 1
    ∧ @ParameterFilter basicLatinTables
        [("limit", ["9223372036854775807"]), ("offset", ["1"])] 5 (sortableKeys typeDocks)
      = some ⟨1, -9223372036854775808, "desc", "ID"⟩
    ∧ (-9223372036854775808 : Int) ≠ min (9223372036854775807 + 1) 5 := by
  decide

/-- C3, amended. For parameters whose present keys carry at least one value,
`ParameterFilter(m, size, keys)` returns a page specification with `beginIdx =
GetOffset(m, size)`, with `endIdx = size` when `GetLimit(m)` is the default limit 50,
and otherwise, provided `limit + offset` does not exceed the largest `int`
(`2^63 - 1`), with `endIdx = min(GetLimit(m) + GetOffset(m, size), size)`. -/
theorem ParameterFilter_indices [CaseTables] (m : Params) (size : Int) (sortKeys : List String)
    (hv : ∀ key ∈ validKey, HasValue m key) :
    ∃ limit offset p,
      GetLimit m = some limit ∧ GetOffset m size = some offset ∧
      ParameterFilter m size sortKeys = some p ∧
      p.beginIdx = offset ∧
      (limit = 50 → p.endIdx = size) ∧
      (limit ≠ 50 → limit + offset ≤ 2 ^ 63 - 1 → p.endIdx = min (limit + offset) size) := by
  obtain ⟨limit, hL⟩ := GetLimit_isSome m (hv "limit" (by decide))
  obtain ⟨offset, hO⟩ := GetOffset_isSome m size (hv "offset" (by decide))
  obtain ⟨sortDir, hD⟩ := GetSortDir_isSome m (hv "sortDir" (by decide))
  obtain ⟨sortKey, hK⟩ := GetSortKey_isSome m sortKeys (hv "sortKey" (by decide))
  have hl0 : 0 ≤ limit := GetLimit_nonneg m limit hL
  have ho0 : 0 ≤ offset := GetOffset_nonneg m size offset hO
  refine ⟨limit, offset,
    ⟨offset, if limit = DefaultLimit ∨ wrapInt (limit + offset) > size then size
      else wrapInt (limit + offset), sortDir, sortKey⟩, hL, hO, ?_, ?_, ?_, ?_⟩
  · simp only [ParameterFilter, hL, hO, hD, hK]
  · rfl
  · intro h50
    simp [h50, DefaultLimit]
  · intro h50 hsum
    have hw : wrapInt (limit + offset) = limit + offset := by
      unfold wrapInt
      omega
    simp only [hw]
    by_cases hgt : limit + offset > size
    · simp [DefaultLimit, h50, hgt]
      omega
    · simp [DefaultLimit, h50, hgt]
      omega

/-- The amended C3 at `limit=2`, `offset=1` and a collection of 5 elements. -/
theorem ParameterFilter_indices_witness :
    ∃ limit offset p,
      GetLimit [("limit", ["2"]), ("offset", ["1"])] = some limit ∧
      GetOffset [("limit", ["2"]), ("offset", ["1"])] 5 = some offset ∧
      @ParameterFilter basicLatinTables [("limit", ["2"]), ("offset", ["1"])] 5
        (sortableKeys typeDocks) = some p ∧
      p.beginIdx = offset ∧
      (limit = 50 → p.endIdx = 5) ∧
      (limit ≠ 50 → limit + offset ≤ 2 ^ 63 - 1 → p.endIdx = min (limit + offset) 5) :=
  @ParameterFilter_indices basicLatinTables [("limit", ["2"]), ("offset", ["1"])] 5
    (sortableKeys typeDocks) (by decide)

/-- C4. `GetOffset(m, size)` returns `n` when `m` has an `offset` key whose first
value parses (by `strconv.Atoi`) as an integer `n` with `0 <= n <= size`, so `n =
size` is accepted; it returns the default 0 when the key is absent, when the first
value does not parse, when `n < 0` and when `n > size`. The result is a plain
integer, never an error: for a key that carries at least one value a result is
always returned. The offset `-1` on a collection of 10 elements resolves to 0. -/
theorem GetOffset_resolution (m : Params) (size : Int) :
    (∀ v0 rest n, List.lookup "offset" m = some (v0 :: rest) → Atoi v0 = some n →
      0 ≤ n → n ≤ size → GetOffset m size = some n) ∧
    (List.lookup "offset" m = none → GetOffset m size = some 0) ∧
    (∀ v0 rest, List.lookup "offset" m = some (v0 :: rest) → Atoi v0 = none →
      GetOffset m size = some 0) ∧
    (∀ v0 rest n, List.lookup "offset" m = some (v0 :: rest) → Atoi v0 = some n →
      (n < 0 ∨ size < n) → GetOffset m size = some 0) ∧
    (HasValue m "offset" → ∃ offset, GetOffset m size = some offset) ∧
    GetOffset [("offset", ["-1"])] 10 = some 0 := by
  refine ⟨?_, ?_, ?_, ?_, GetOffset_isSome m size, by decide⟩
  · intro v0 rest n hk hn h0 hs
    have : ¬ (n < 0 ∨ n > size) := by omega
    simp [GetOffset, hk, hn, this]
  · intro hk
    simp [GetOffset, hk, DefaultOffset]
  · intro v0 rest hk hn
    simp [GetOffset, hk, hn, DefaultOffset]
  · intro v0 rest n hk hn hbad
    have : n < 0 ∨ n > size := by omega
    simp [GetOffset, hk, hn, this, DefaultOffset]

/-- C4 at the offsets `10` (accepted, equal to the size), `11` (beyond the size) and
`x` (not an integer) on a collection of 10 elements. -/
theorem GetOffset_resolution_witness :
    GetOffset [("offset", ["10"])] 10 = some 10 ∧
    GetOffset [("offset", ["11"])] 10 = some 0 ∧
    GetOffset [("offset", ["x"])] 10 = some 0 :=
  ⟨(GetOffset_resolution [("offset", ["10"])] 10).1 "10" [] 10 (by decide) (by decide)
      (by decide) (by decide),
   (GetOffset_resolution [("offset", ["11"])] 10).2.2.2.1 "11" [] 11 (by decide) (by decide)
      (by decide),
   (GetOffset_resolution [("offset", ["x"])] 10).2.2.1 "x" [] (by decide) (by decide)⟩

/-- C5. `GetLimit(m)` returns `n` when `m` has a `limit` key whose first value
parses (by `strconv.Atoi`) as an integer `n >= 0`; it returns the fixed default 50
when the key is absent, when the first value does not parse and when `n < 0`. The
result is a plain integer, never an error: for a key that carries at least one
value a result is always returned. -/
theorem GetLimit_resolution (m : Params) :
    (∀ v0 rest n, List.lookup "limit" m = some (v0 :: rest) → Atoi v0 = some n →
      0 ≤ n → GetLimit m = some n) ∧
    (List.lookup "limit" m = none → GetLimit m = some 50) ∧
    (∀ v0 rest, List.lookup "limit" m = some (v0 :: rest) → Atoi v0 = none →
      GetLimit m = some 50) ∧
    (∀ v0 rest n, List.lookup "limit" m = some (v0 :: rest) → Atoi v0 = some n →
      n < 0 → GetLimit m = some 50) ∧
    (HasValue m "limit" → ∃ limit, GetLimit m = some limit) := by
  refine ⟨?_, ?_, ?_, ?_, GetLimit_isSome m⟩
  · intro v0 rest n hk hn h0
    have : ¬ n < 0 := by omega
    simp [GetLimit, hk, hn, this]
  · intro hk
    simp [GetLimit, hk, DefaultLimit]
  · intro v0 rest hk hn
    simp [GetLimit, hk, hn, DefaultLimit]
  · intro v0 rest n hk hn hneg
    simp [GetLimit, hk, hn, hneg, DefaultLimit]

/-- C5 at the limits `7`, `-7` and `7x`. -/
theorem GetLimit_resolution_witness :
    GetLimit [("limit", ["7"])] = some 7 ∧
    GetLimit [("limit", ["-7"])] = some 50 ∧
    GetLimit [("limit", ["7x"])] = some 50 :=
  ⟨(GetLimit_resolution [("limit", ["7"])]).1 "7" [] 7 (by decide) (by decide) (by decide),
   (GetLimit_resolution [("limit", ["-7"])]).2.2.2.1 "-7" [] (-7) (by decide) (by decide)
      (by decide),
   (GetLimit_resolution [("limit", ["7x"])]).2.2.1 "7x" [] (by decide) (by decide)⟩

theorem EqualFold_refl [CaseTables] (s : String) : EqualFold s s = true := by
  simp [EqualFold]

/-- C6. `GetSortDir(m)` returns the default `desc` when the `sortDir` key is absent
and when its first value case-insensitively equals neither `asc` nor `desc`; when
the first value does case-insensitively equal `asc` or `desc`, the result is that
supplied value, so it case-insensitively equals it. The result is a plain string,
never an error: for a key that carries at least one value a result is always
returned. -/
theorem GetSortDir_resolution [CaseTables] (m : Params) :
    (List.lookup "sortDir" m = none → GetSortDir m = some "desc") ∧
    (∀ v0 rest, List.lookup "sortDir" m = some (v0 :: rest) →
      EqualFold v0 "asc" = false → EqualFold v0 "desc" = false →
      GetSortDir m = some "desc") ∧
    (∀ v0 rest, List.lookup "sortDir" m = some (v0 :: rest) →
      (EqualFold v0 "asc" = true ∨ EqualFold v0 "desc" = true) →
      ∃ result, GetSortDir m = some result ∧ result = v0 ∧ EqualFold result v0 = true) ∧
    (HasValue m "sortDir" → ∃ sortDir, GetSortDir m = some sortDir) := by
  refine ⟨?_, ?_, ?_, GetSortDir_isSome m⟩
  · intro hk
    simp [GetSortDir, hk, DefaultSortDir]
  · intro v0 rest hk ha hd
    simp [GetSortDir, hk, ha, hd, DefaultSortDir]
  · intro v0 rest hk h
    refine ⟨v0, ?_, rfl, EqualFold_refl v0⟩
    rcases h with h | h <;> simp [GetSortDir, hk, h]

/-- C6 at the directions `up` (rejected) and `Asc` (kept as supplied). -/
theorem GetSortDir_resolution_witness :
    @GetSortDir basicLatinTables [("sortDir", ["up"])] = some "desc" ∧
    (∃ result, @GetSortDir basicLatinTables [("sortDir", ["Asc"])] = some result ∧
      result = "Asc" ∧ @EqualFold basicLatinTables result "Asc" = true) :=
  ⟨(@GetSortDir_resolution basicLatinTables [("sortDir", ["up"])]).2.1 "up" [] (by decide)
      (by decide) (by decide),
   (@GetSortDir_resolution basicLatinTables [("sortDir", ["Asc"])]).2.2.1 "Asc" []
      (by decide) (Or.inl (by decide))⟩

/-- C7, as stated, fails. For the parameters `sortDir=ASC` the sort direction of the
page specification returned by `ParameterFilter` is the string `ASC`, which is
neither `asc` nor `desc`. -/
theorem ParameterFilter_sortDir_not_normalised :
    ∃ p, @ParameterFilter basicLatinTables [("sortDir", ["ASC"])] 10 (sortableKeys typeDocks)
        = some p ∧
      @GetSortDir basicLatinTables [("sortDir", ["ASC"])] = some p.sortDir ∧
      p.sortDir = "ASC" ∧ p.sortDir ≠ "asc" ∧ p.sortDir ≠ "desc" :=
  ⟨⟨0, 10, "ASC", "ID"⟩, by decide, by decide, by decide, by decide, by decide⟩

/-- C7, amended. The sort direction of the page specification returned by
`ParameterFilter` is the value of `GetSortDir(m)`, and it case-insensitively equals
`asc` or `desc`: it is the supplied value with its letter case unchanged, or
`desc`, the default. A page specification is returned whenever the four recognised
keys carry at least one value each. -/
theorem ParameterFilter_sortDir [CaseTables] (m : Params) (size : Int) (sortKeys : List String) :
    ((∀ key ∈ validKey, HasValue m key) → ∃ p, ParameterFilter m size sortKeys = some p) ∧
    (∀ p, ParameterFilter m size sortKeys = some p →
      GetSortDir m = some p.sortDir ∧
      (EqualFold p.sortDir "asc" = true ∨ EqualFold p.sortDir "desc" = true)) := by
  constructor
  · intro hv
    obtain ⟨limit, hL⟩ := GetLimit_isSome m (hv "limit" (by decide))
    obtain ⟨offset, hO⟩ := GetOffset_isSome m size (hv "offset" (by decide))
    obtain ⟨sortDir, hD⟩ := GetSortDir_isSome m (hv "sortDir" (by decide))
    obtain ⟨sortKey, hK⟩ := GetSortKey_isSome m sortKeys (hv "sortKey" (by decide))
    simp only [ParameterFilter, hL, hO, hD, hK]
    exact ⟨_, rfl⟩
  · intro p hp
    have hdir : ∀ d, GetSortDir m = some d →
        EqualFold d "asc" = true ∨ EqualFold d "desc" = true := by
      intro d hd
      cases hk : List.lookup "sortDir" m with
      | none =>
        simp [GetSortDir, hk, DefaultSortDir] at hd
        subst hd
        right; exact EqualFold_refl _
      | some v =>
        cases v with
        | nil => simp [GetSortDir, hk] at hd
        | cons v0 rest =>
          by_cases h1 : EqualFold v0 "desc" = true
          · simp [GetSortDir, hk, h1] at hd
            subst hd
            right; exact h1
          · by_cases h2 : EqualFold v0 "asc" = true
            · simp [GetSortDir, hk, h1, h2] at hd
              subst hd
              left; exact h2
            · simp [GetSortDir, hk, h1, h2, DefaultSortDir] at hd
              subst hd
              right; exact EqualFold_refl _
    unfold ParameterFilter at hp
    split at hp
    · split at hp
      · rename_i hD _
        simp at hp
        subst hp
        exact ⟨hD, hdir _ hD⟩
      · simp at hp
    · simp at hp

/-- The amended C7 at `sortDir=ASC`. -/
theorem ParameterFilter_sortDir_witness :
    (∃ p, @ParameterFilter basicLatinTables [("sortDir", ["ASC"])] 10 (sortableKeys typeDocks)
        = some p) ∧
    (@GetSortDir basicLatinTables [("sortDir", ["ASC"])] = some "ASC" ∧
      (@EqualFold basicLatinTables "ASC" "asc" = true ∨
        @EqualFold basicLatinTables "ASC" "desc" = true)) :=
  ⟨(@ParameterFilter_sortDir basicLatinTables [("sortDir", ["ASC"])] 10
      (sortableKeys typeDocks)).1 (by decide),
   (@ParameterFilter_sortDir basicLatinTables [("sortDir", ["ASC"])] 10
      (sortableKeys typeDocks)).2 ⟨0, 10, "ASC", "ID"⟩ (by decide)⟩

/-- The Kelvin-sign value under every case table: `doc\u212Aid` is upper-cased to
`DOC\u212AID` (U+212A is its own upper case), which lies in the orbit of `DOCKID`
rune by rune (U+212A folds with `K`), so `GetSortKey` returns it for the Pools
allow-list. -/
theorem GetSortKey_kelvin [CaseTables] :
    ToUpper "doc\u212Aid" = "DOC\u212AID"
    ∧ EqualFold "DOC\u212AID" "DOCKID" = true
    ∧ GetSortKey [("sortKey", ["doc\u212Aid"])] (sortableKeys typePools)
        = some "DOC\u212AID" := by
  have hup : ∀ (c d : Char), 97 ≤ c.toNat → c.toNat ≤ 122 → d.toNat = c.toNat - 32 →
      CaseTables.upperRune c = d := by
    intro c d h1 h2 hd
    apply char_eq_of_toNat_eq
    rw [CaseTables.upper_of_lower c h1 h2, hd]
  have hD := hup (Char.ofNat 100) (Char.ofNat 68) (by decide) (by decide) (by decide)
  have hO := hup (Char.ofNat 111) (Char.ofNat 79) (by decide) (by decide) (by decide)
  have hC := hup (Char.ofNat 99) (Char.ofNat 67) (by decide) (by decide) (by decide)
  have hI := hup (Char.ofNat 105) (Char.ofNat 73) (by decide) (by decide) (by decide)
  have hK : CaseTables.upperRune (Char.ofNat 8490) = Char.ofNat 8490 := by
    apply char_eq_of_toNat_eq
    rw [CaseTables.upper_kelvin]
    decide
  have hdata : "doc\u212Aid".data =
      [Char.ofNat 100, Char.ofNat 111, Char.ofNat 99, Char.ofNat 8490, Char.ofNat 105,
        Char.ofNat 100] := by decide
  have hres : "DOC\u212AID" =
      String.mk [Char.ofNat 68, Char.ofNat 79, Char.ofNat 67, Char.ofNat 8490,
        Char.ofNat 73, Char.ofNat 68] := by decide
  have hkey : "DOCKID".data =
      [Char.ofNat 68, Char.ofNat 79, Char.ofNat 67, Char.ofNat 75, Char.ofNat 73,
        Char.ofNat 68] := by decide
  have h1 : ToUpper "doc\u212Aid" = "DOC\u212AID" := by
    unfold ToUpper
    rw [hdata, hres]
    simp only [List.map_cons, List.map_nil, hD, hO, hC, hI, hK]
  have h2 : EqualFold "DOC\u212AID" "DOCKID" = true := by
    unfold EqualFold
    rw [hkey, hres]
    simp only [List.map_cons, List.map_nil, CaseTables.fold_kelvin, beq_self_eq_true]
  refine ⟨h1, h2, ?_⟩
  have h3 : IsInArray (ToUpper "doc\u212Aid") (sortableKeys typePools) = true := by
    rw [IsInArray_iff, h1]
    exact ⟨"DOCKID", by decide, h2⟩
  have hlk : List.lookup "sortKey" [("sortKey", ["doc\u212Aid"])]
      = some ["doc\u212Aid"] := by decide
  rw [h1] at h3
  simp [GetSortKey, hlk, h3, h1]

/-- C8, as stated, fails. The Pools allow-list holds `DOCKID`. The value
`doc\u212Aid` (with U+212A, KELVIN SIGN, which is its own upper case and folds to
`k`) is upper-cased to `DOC\u212AID`, case-insensitively equals `DOCKID`, and is
returned: the result is not a member of the allow-list. -/
theorem GetSortKey_pools_not_member :
    @GetSortKey basicLatinTables [("sortKey", ["doc\u212Aid"])] (sortableKeys typePools)
      = some "DOC\u212AID"
    ∧ "DOC\u212AID" ∉ sortableKeys typePools
    ∧ @EqualFold basicLatinTables "DOC\u212AID" "DOCKID" = true :=
  ⟨(@GetSortKey_kelvin basicLatinTables).2.2, by decide,
   (@GetSortKey_kelvin basicLatinTables).2.1⟩

/-- C8, amended. `GetSortKey(m, keys)` returns the upper-cased first value of
`sortKey` when the key is present and the upper-cased value case-insensitively
equals an element of `keys`, and the default `ID` otherwise (key absent, or no
match). Consequently the result is always a member of the allow-list for the Docks
and the Profiles allow-lists; for the Pools allow-list it is a member or
case-insensitively equals the element `DOCKID`. -/
theorem GetSortKey_resolution [CaseTables] (m : Params) (sortKeys : List String) :
    (List.lookup "sortKey" m = none → GetSortKey m sortKeys = some "ID") ∧
    (∀ v0 rest, List.lookup "sortKey" m = some (v0 :: rest) →
      (∃ key ∈ sortKeys, EqualFold (ToUpper v0) key = true) →
      GetSortKey m sortKeys = some (ToUpper v0)) ∧
    (∀ v0 rest, List.lookup "sortKey" m = some (v0 :: rest) →
      (¬ ∃ key ∈ sortKeys, EqualFold (ToUpper v0) key = true) →
      GetSortKey m sortKeys = some "ID") ∧
    (HasValue m "sortKey" → ∃ sortKey, GetSortKey m sortKeys = some sortKey) ∧
    (∀ r, GetSortKey m (sortableKeys typeDocks) = some r → r ∈ sortableKeys typeDocks) ∧
    (∀ r, GetSortKey m (sortableKeys typeProfiles) = some r →
      r ∈ sortableKeys typeProfiles) ∧
    (∀ r, GetSortKey m (sortableKeys typePools) = some r →
      r ∈ sortableKeys typePools ∨ EqualFold r "DOCKID" = true) := by
  refine ⟨?_, ?_, ?_, GetSortKey_isSome m sortKeys, ?_, ?_, ?_⟩
  · intro hk
    simp [GetSortKey, hk, defaultSortKey]
  · intro v0 rest hk hin
    have := (IsInArray_iff (ToUpper v0) sortKeys).2 hin
    simp [GetSortKey, hk, this]
  · intro v0 rest hk hin
    have : IsInArray (ToUpper v0) sortKeys = false := by
      cases h : IsInArray (ToUpper v0) sortKeys with
      | false => rfl
      | true => exact absurd ((IsInArray_iff _ _).1 h) hin
    simp [GetSortKey, hk, this, defaultSortKey]
  · intro r h
    exact GetSortKey_mem m _ (by decide) (by decide) r h
  · intro r h
    exact GetSortKey_mem m _ (by decide) (by decide) r h
  · intro r h
    rcases GetSortKey_cases m _ r h with h1 | ⟨v0, key, hr, hmem, heq⟩
    · left; rw [h1]; decide
    · have hmem2 : key ∈ ["ID", "NAME", "STATUS", "AVAILABILITYZONE"] ∨ key = "DOCKID" := by
        revert hmem; simp [sortableKeys, sortableKeysMap, typePools, typeDocks, List.lookup]
        tauto
      rcases hmem2 with h2 | h2
      · left
        have hup : IsUpperNoK key := by
          have : ∀ key ∈ ["ID", "NAME", "STATUS", "AVAILABILITYZONE"], IsUpperNoK key := by
            decide
          exact this key h2
        rw [hr, ToUpper_eq_of_EqualFold v0 key hup heq]
        exact hmem
      · right
        rw [hr, ← h2]; exact heq

/-- The amended C8 at the sort keys `name` (allowed for docks) and `size` (not
allowed). -/
theorem GetSortKey_resolution_witness :
    @GetSortKey basicLatinTables [("sortKey", ["name"])] (sortableKeys typeDocks)
      = some "NAME" ∧
    @GetSortKey basicLatinTables [("sortKey", ["size"])] (sortableKeys typeDocks)
      = some "ID" ∧
    "NAME" ∈ sortableKeys typeDocks :=
  ⟨(@GetSortKey_resolution basicLatinTables [("sortKey", ["name"])]
      (sortableKeys typeDocks)).2.1 "name" [] (by decide) ⟨"NAME", by decide, by decide⟩,
   (@GetSortKey_resolution basicLatinTables [("sortKey", ["size"])]
      (sortableKeys typeDocks)).2.2.1 "size" [] (by decide) (by decide),
   (@GetSortKey_resolution basicLatinTables [("sortKey", ["name"])]
      (sortableKeys typeDocks)).2.2.2.2.1 "NAME" (by decide)⟩

/-- C9. For each resource kind `K` among `docks`, `pools`, `profiles` (the
generators `GenerateDockURL`, `GeneratePoolURL`, `GenerateProfileURL`), every
tenant id and every list of id segments: with an empty tenant id the path is the
`/`-join of `[version, K] ++ ids` for every URL type; with a non-empty tenant id it
is the `/`-join of `[version, K, tenant] ++ ids` for the URL type `Etcd` and of
`[version, tenant, K] ++ ids` for the URL type `Client`. -/
theorem generateURL_paths (version tenantId : String) (ids : List String) :
    ∀ kg ∈ urlGenerators,
      (tenantId = "" → ∀ urlType,
        kg.2 version urlType tenantId ids = "/".intercalate ([version, kg.1] ++ ids)) ∧
      (tenantId ≠ "" →
        kg.2 version Etcd tenantId ids
          = "/".intercalate ([version, kg.1, tenantId] ++ ids) ∧
        kg.2 version Client tenantId ids
          = "/".intercalate ([version, tenantId, kg.1] ++ ids)) := by
  intro kg hkg
  simp only [urlGenerators, List.mem_cons, List.mem_singleton, List.not_mem_nil,
    or_false] at hkg
  rcases hkg with h | h | h <;> subst h <;>
    refine ⟨fun ht urlType => ?_, fun ht => ⟨?_, ?_⟩⟩ <;>
    simp [GenerateDockURL, GeneratePoolURL, GenerateProfileURL, generateURL, ht, Join,
      CurrentVersion, Etcd, Client]

/-- C9 at one path of each shape. -/
theorem generateURL_paths_witness :
    GenerateDockURL "v1beta" Etcd "" ["d1"] = "v1beta/docks/d1" ∧
    GeneratePoolURL "v1beta" Etcd "t1" ["p1"] = "v1beta/pools/t1/p1" ∧
    GenerateProfileURL "v1beta" Client "t1" ["f1"] = "v1beta/t1/profiles/f1" :=
  ⟨((generateURL_paths "v1beta" "" ["d1"] ("docks", GenerateDockURL) (by simp [urlGenerators])).1
      rfl Etcd).trans (by decide),
   ((generateURL_paths "v1beta" "t1" ["p1"] ("pools", GeneratePoolURL)
      (by simp [urlGenerators])).2 (by decide)).1.trans (by decide),
   ((generateURL_paths "v1beta" "t1" ["f1"] ("profiles", GenerateProfileURL)
      (by simp [urlGenerators])).2 (by decide)).2.trans (by decide)⟩

theorem profileURL_prefix (v id : String) :
    (GenerateProfileURL v Etcd "" []).data.isPrefixOf
      (GenerateProfileURL v Etcd "" [id]).data = true := by
  simp [GenerateProfileURL, generateURL, Join, CurrentVersion, String.intercalate,
    String.intercalate.go, List.isPrefixOf_iff_prefix]

theorem decodeProfiles_append (errText : String) (msgs : List Document) (prf : ProfileSpec) :
    decodeProfiles errText (msgs ++ [Document.profile prf]) =
      match decodeProfiles errText msgs with
      | Except.ok prfs => Except.ok (prfs ++ [prf])
      | Except.error err => Except.error err := by
  induction msgs with
  | nil => simp [decodeProfiles, unmarshalProfile]
  | cons msg rest ih =>
    rw [List.cons_append]
    cases hm : unmarshalProfile msg with
    | none => simp [decodeProfiles, hm]
    | some p =>
      cases hr : decodeProfiles errText rest with
      | ok prfs => simp [decodeProfiles, hm, ih, hr]
      | error err => simp [decodeProfiles, hm, ih, hr]

theorem ListProfiles_kvBackend (v : String) (s : Store) :
    ListProfiles kvBackend v s =
      decodeProfiles ""
        ((s.filter (fun kv =>
          (GenerateProfileURL v Etcd "" []).data.isPrefixOf kv.1.data)).map Prod.snd) := by
  unfold ListProfiles
  simp only [kvBackend]
  generalize (List.map Prod.snd
    (List.filter (fun kv => (GenerateProfileURL v Etcd "" []).data.isPrefixOf kv.1.data) s))
    = msgs
  rw [if_neg (by decide)]
  cases msgs with
  | nil => simp [decodeProfiles]
  | cons a l => simp
theorem getProfileByName_found {σ : Type} (c : clientInterface σ) (v name : String) (s : σ)
    (profiles : List ProfileSpec) (hList : ListProfiles c v s = Except.ok profiles)
    (hName : ∃ p ∈ profiles, p.Name = name) :
    ∃ found, getProfileByName c v name s = Except.ok found := by
  obtain ⟨p, hp, hpn⟩ := hName
  cases hf : profiles.find? (fun profile => profile.Name == name) with
  | none =>
    rw [List.find?_eq_none] at hf
    have := hf p hp
    simp [hpn] at this
  | some found =>
    exact ⟨found, by simp [getProfileByName, hList, hf]⟩

theorem CreateProfile_collision {σ : Type} (c : clientInterface σ) (v newId now : String)
    (prf : ProfileSpec) (s : σ) (profiles : List ProfileSpec)
    (hList : ListProfiles c v s = Except.ok profiles)
    (hName : ∃ p ∈ profiles, p.Name = prf.Name) :
    CreateProfile c v newId now prf s =
      (Except.error
        (Error.generic ("the profile name \x27" ++ prf.Name ++ "\x27 already exists")), s) := by
  obtain ⟨found, hf⟩ := getProfileByName_found c v prf.Name s profiles hList hName
  unfold CreateProfile
  by_cases h1 : prf.Id = "" <;> by_cases h2 : prf.CreatedAt = "" <;>
    simp [h1, h2, hf]
theorem CreateProfile_unfold {σ : Type} (c : clientInterface σ) (v newId now : String)
    (prf : ProfileSpec) (s : σ) :
    ∃ q : ProfileSpec, q.Name = prf.Name ∧
      CreateProfile c v newId now prf s =
        match getProfileByName c v q.Name s with
        | Except.ok _ =>
          (Except.error (Error.generic ("the profile name \x27" ++ q.Name ++
            "\x27 already exists")), s)
        | Except.error _ =>
          if (c.Create ⟨GenerateProfileURL v Etcd "" [q.Id], marshalProfile q,
              Document.raw ""⟩ s).1.Status ≠ "Success" then
            (Except.error (Error.generic (c.Create
              ⟨GenerateProfileURL v Etcd "" [q.Id], marshalProfile q, Document.raw ""⟩
              s).1.Error),
              (c.Create ⟨GenerateProfileURL v Etcd "" [q.Id], marshalProfile q,
                Document.raw ""⟩ s).2)
          else (Except.ok q, (c.Create
            ⟨GenerateProfileURL v Etcd "" [q.Id], marshalProfile q, Document.raw ""⟩ s).2) := by
  refine ⟨(if (if prf.Id = "" then { prf with Id := newId } else prf).CreatedAt = "" then
      { (if prf.Id = "" then { prf with Id := newId } else prf) with CreatedAt := now }
    else (if prf.Id = "" then { prf with Id := newId } else prf)), ?_, rfl⟩
  by_cases h1 : prf.Id = "" <;> by_cases h2 : prf.CreatedAt = "" <;> simp [h1, h2]

theorem CreateProfile_kvBackend_ok (v newId now : String) (prf created : ProfileSpec)
    (s s1 : Store)
    (h : CreateProfile kvBackend v newId now prf s = (Except.ok created, s1)) :
    created.Name = prf.Name ∧
    s1 = s ++ [(GenerateProfileURL v Etcd "" [created.Id], Document.profile created)] := by
  obtain ⟨q, hq, hunf⟩ := CreateProfile_unfold kvBackend v newId now prf s
  rw [hunf] at h
  split at h
  · simp at h
  · simp only [kvBackend, marshalProfile] at h
    split at h
    · split at h
      · simp at h
      · rename_i hne
        simp at hne
    · split at h
      · simp at h
      · simp only [Prod.mk.injEq, Except.ok.injEq] at h
        obtain ⟨h1, h2⟩ := h
        subst h1
        exact ⟨hq, h2.symm⟩

theorem ListProfiles_kvBackend_after_create (v : String) (s : Store) (created : ProfileSpec)
    (ps : List ProfileSpec) (hList : ListProfiles kvBackend v s = Except.ok ps) :
    ListProfiles kvBackend v
      (s ++ [(GenerateProfileURL v Etcd "" [created.Id], Document.profile created)])
      = Except.ok (ps ++ [created]) := by
  rw [ListProfiles_kvBackend] at hList ⊢
  rw [List.filter_append, List.map_append]
  have hp := profileURL_prefix v created.Id
  simp only [List.filter_cons, hp, if_true, List.filter_nil, List.map_cons, List.map_nil]
  rw [decodeProfiles_append, hList]
/-- C10. In every store state in which the listing of the profiles succeeds and
holds a profile whose name equals `prf.Name`, `CreateProfile(prf)` fails with the
error `the profile name '<name>' already exists` and leaves the backend state as it
was, whatever the backend is (so no `Create` reached it). In particular, on the
key-value backend with a readable profile listing, once a `CreateProfile` has
succeeded a second one for a profile of the same name fails with that error. -/
theorem CreateProfile_rejects_existing_name {σ : Type} (c : clientInterface σ)
    (v newId now : String) (prf : ProfileSpec) (s : σ) (profiles : List ProfileSpec)
    (hList : ListProfiles c v s = Except.ok profiles)
    (hName : ∃ p ∈ profiles, p.Name = prf.Name) :
    CreateProfile c v newId now prf s =
      (Except.error
        (Error.generic ("the profile name \x27" ++ prf.Name ++ "\x27 already exists")), s)
    ∧ (∀ (id1 now1 id2 now2 : String) (first second created : ProfileSpec)
        (s0 s1 : Store) (listed : List ProfileSpec),
        ListProfiles kvBackend v s0 = Except.ok listed →
        CreateProfile kvBackend v id1 now1 first s0 = (Except.ok created, s1) →
        second.Name = first.Name →
        CreateProfile kvBackend v id2 now2 second s1 =
          (Except.error
            (Error.generic ("the profile name \x27" ++ second.Name ++
              "\x27 already exists")), s1)) := by
  refine ⟨CreateProfile_collision c v newId now prf s profiles hList hName, ?_⟩
  intro id1 now1 id2 now2 first second created s0 s1 listed hL hC hN
  obtain ⟨hcn, hs1⟩ := CreateProfile_kvBackend_ok v id1 now1 first created s0 s1 hC
  have hL1 := ListProfiles_kvBackend_after_create v s0 created listed hL
  rw [← hs1] at hL1
  exact CreateProfile_collision kvBackend v id2 now2 second s1 (listed ++ [created]) hL1
    ⟨created, by simp, by rw [hcn, hN]⟩

/-- C10 on the key-value backend holding the profile `gold`. -/
theorem CreateProfile_rejects_existing_name_witness :
    CreateProfile kvBackend "v1beta" "id2" "t2" goldProfile goldStore =
      (Except.error (Error.generic "the profile name \x27gold\x27 already exists"),
        goldStore)
    ∧ (CreateProfile kvBackend "v1beta" "id1" "t1" goldProfile [] =
        (Except.ok goldStored, goldStore) →
      CreateProfile kvBackend "v1beta" "id3" "t3" goldProfile goldStore =
        (Except.error (Error.generic "the profile name \x27gold\x27 already exists"),
          goldStore)) :=
  ⟨(CreateProfile_rejects_existing_name kvBackend "v1beta" "id2" "t2" goldProfile goldStore
      [goldStored] (by decide) ⟨goldStored, by decide, by decide⟩).1,
   fun h => (CreateProfile_rejects_existing_name kvBackend "v1beta" "id2" "t2" goldProfile
      goldStore [goldStored] (by decide) ⟨goldStored, by decide, by decide⟩).2
      "id1" "t1" "id3" "t3" goldProfile goldProfile goldStored [] goldStore []
      (by decide) h rfl⟩

theorem AddCustomProperty_collision {σ : Type} (c : clientInterface σ)
    (v newId createdAt now prfID : String) (ext : List (String × String)) (s : σ)
    (stored : ProfileSpec) (profiles : List ProfileSpec)
    (hGet : GetProfile c v prfID s = some (Except.ok stored))
    (hList : ListProfiles c v s = Except.ok profiles)
    (hListed : ∃ p ∈ profiles, p.Name = stored.Name) :
    AddCustomProperty c v newId createdAt now prfID ext s =
      some (Except.error
        (Error.generic ("the profile name \x27" ++ stored.Name ++ "\x27 already exists")), s) := by
  have h := CreateProfile_collision c v newId createdAt
    { stored with CustomProperties := mapSetAll stored.CustomProperties ext, UpdatedAt := now }
    s profiles hList hListed
  simp only [AddCustomProperty, hGet]
  rw [h]

theorem RemoveCustomProperty_collision {σ : Type} (c : clientInterface σ)
    (v newId createdAt prfID customKey : String) (s : σ)
    (stored : ProfileSpec) (profiles : List ProfileSpec)
    (hGet : GetProfile c v prfID s = some (Except.ok stored))
    (hList : ListProfiles c v s = Except.ok profiles)
    (hListed : ∃ p ∈ profiles, p.Name = stored.Name) :
    RemoveCustomProperty c v newId createdAt prfID customKey s =
      some (some
        (Error.generic ("the profile name \x27" ++ stored.Name ++ "\x27 already exists")), s) := by
  have h := CreateProfile_collision c v newId createdAt
    { stored with CustomProperties := mapDelete stored.CustomProperties customKey }
    s profiles hList hListed
  simp only [RemoveCustomProperty, hGet]
  rw [h]

/-- C11, evaluated at a failing input. The key-value backend holds the profile
`gold` under its id `id1`; `GetProfile` succeeds and the listing holds the profile.
`AddCustomProperty("id1", {tier: fast})` does not succeed: its final call of
`CreateProfile` finds the name of the profile itself in the listing, so the call
returns the error `the profile name 'gold' already exists` and the backend keeps
the document without the new property. `RemoveCustomProperty` fails the same way. -/
theorem AddCustomProperty_fails_on_listed_profile :
    GetProfile kvBackend "v1beta" "id1" goldStore = some (Except.ok goldStored)
    ∧ ListProfiles kvBackend "v1beta" goldStore = Except.ok [goldStored]
    ∧ AddCustomProperty kvBackend "v1beta" "id9" "t9" "t2" "id1" [("tier", "fast")] goldStore
      = some (Except.error (Error.generic "the profile name \x27gold\x27 already exists"),
          goldStore)
    ∧ RemoveCustomProperty kvBackend "v1beta" "id9" "t9" "id1" "tier" goldStore
      = some (some (Error.generic "the profile name \x27gold\x27 already exists"),
          goldStore) :=
  ⟨by decide, by decide,
   AddCustomProperty_collision kvBackend "v1beta" "id9" "t9" "t2" "id1" [("tier", "fast")]
     goldStore goldStored [goldStored] (by decide) (by decide)
     ⟨goldStored, by decide, rfl⟩,
   RemoveCustomProperty_collision kvBackend "v1beta" "id9" "t9" "id1" "tier"
     goldStore goldStored [goldStored] (by decide) (by decide)
     ⟨goldStored, by decide, rfl⟩⟩

theorem lookup_cons_eq (k a b : String) (rest : List (String × String)) :
    List.lookup k ((a, b) :: rest) = if k = a then some b else List.lookup k rest := by
  by_cases h : k = a
  · simp [List.lookup, h]
  · have hb : (k == a) = false := by simpa using h
    simp [List.lookup, h, hb]

theorem lookup_mapSet (m : List (String × String)) (k v k' : String) :
    List.lookup k' (mapSet m k v) = if k' = k then some v else List.lookup k' m := by
  induction m with
  | nil =>
    simp only [mapSet, lookup_cons_eq]
  | cons kv rest ih =>
    obtain ⟨a, b⟩ := kv
    by_cases h1 : a = k
    · subst h1
      simp only [mapSet, if_true, lookup_cons_eq]
      split <;> rfl
    · simp only [mapSet, h1, if_false, lookup_cons_eq, ih]
      by_cases h2 : k' = a
      · have h3 : ¬ k' = k := by rw [h2]; exact h1
        simp [h2, h3, h1]
      · simp [h2]

theorem lookup_mapSetAll_of_not_mem (props m : List (String × String)) (k : String)
    (h : k ∉ props.map Prod.fst) :
    List.lookup k (mapSetAll m props) = List.lookup k m := by
  induction props generalizing m with
  | nil => rfl
  | cons kv rest ih =>
    simp only [List.map_cons, List.mem_cons, not_or] at h
    have : mapSetAll m (kv :: rest) = mapSetAll (mapSet m kv.1 kv.2) rest := rfl
    rw [this, ih _ h.2, lookup_mapSet, if_neg h.1]

theorem lookup_mapSetAll_of_mem (props m : List (String × String)) (k v : String)
    (hnd : (props.map Prod.fst).Nodup) (h : (k, v) ∈ props) :
    List.lookup k (mapSetAll m props) = some v := by
  induction props generalizing m with
  | nil => simp at h
  | cons kv rest ih =>
    have hstep : mapSetAll m (kv :: rest) = mapSetAll (mapSet m kv.1 kv.2) rest := rfl
    simp only [List.map_cons, List.nodup_cons] at hnd
    rw [hstep]
    rcases List.mem_cons.1 h with h1 | h1
    · subst h1
      rw [lookup_mapSetAll_of_not_mem _ _ _ hnd.1, lookup_mapSet, if_pos rfl]
    · exact ih _ hnd.2 h1

/-- C12. When `GetProfile` reads the stored profile `P`, `UpdateProfile(id, input)`
hands the backend `Update` one full document `Q` and, when that write succeeds,
returns `Q`: its name is `input.Name` if that is non-empty and `P.Name` otherwise,
likewise its description; its custom properties are those of `P` overridden by the
entries of `input` (a key `input` does not name keeps the value it has in `P`, a
key `input` names has the value `input` gives it); its updated-at is the current
time; identity, created-at and storage type are those of `P`. -/
theorem UpdateProfile_read_modify_write {σ : Type} (c : clientInterface σ)
    (v now1 now2 prfID : String) (input P : ProfileSpec) (s : σ)
    (hRead : GetProfile c v prfID s = some (Except.ok P)) :
    ∃ Q : ProfileSpec,
      Q.Name = (if input.Name ≠ "" then input.Name else P.Name) ∧
      Q.Description = (if input.Description ≠ "" then input.Description else P.Description) ∧
      Q.UpdatedAt = now2 ∧
      Q.Id = P.Id ∧ Q.CreatedAt = P.CreatedAt ∧ Q.StorageType = P.StorageType ∧
      (∀ k, k ∉ input.CustomProperties.map Prod.fst →
        List.lookup k Q.CustomProperties = List.lookup k P.CustomProperties) ∧
      ((input.CustomProperties.map Prod.fst).Nodup → ∀ k val,
        (k, val) ∈ input.CustomProperties → List.lookup k Q.CustomProperties = some val) ∧
      UpdateProfile c v now1 now2 prfID input s =
        some (if (c.Update ⟨GenerateProfileURL v Etcd "" [prfID], Document.raw "",
                  Document.profile Q⟩ s).1.Status ≠ "Success" then
            (Except.error (Error.generic (c.Update ⟨GenerateProfileURL v Etcd "" [prfID],
              Document.raw "", Document.profile Q⟩ s).1.Error),
             (c.Update ⟨GenerateProfileURL v Etcd "" [prfID], Document.raw "",
               Document.profile Q⟩ s).2)
          else
            (Except.ok Q,
             (c.Update ⟨GenerateProfileURL v Etcd "" [prfID], Document.raw "",
               Document.profile Q⟩ s).2)) := by
  refine ⟨{ P with
      Name := if input.Name ≠ "" then input.Name else P.Name,
      Description := if input.Description ≠ "" then input.Description else P.Description,
      UpdatedAt := now2,
      CustomProperties :=
        if input.CustomProperties.length ≠ 0 then
          mapSetAll P.CustomProperties input.CustomProperties
        else P.CustomProperties }, rfl, rfl, rfl, rfl, rfl, rfl, ?_, ?_, ?_⟩
  · intro k hk
    by_cases hlen : input.CustomProperties.length ≠ 0
    · show List.lookup k (if input.CustomProperties.length ≠ 0 then
          mapSetAll P.CustomProperties input.CustomProperties else P.CustomProperties) = _
      rw [if_pos hlen]
      exact lookup_mapSetAll_of_not_mem _ _ _ hk
    · show List.lookup k (if input.CustomProperties.length ≠ 0 then
          mapSetAll P.CustomProperties input.CustomProperties else P.CustomProperties) = _
      rw [if_neg hlen]
  · intro hnd k val hmem
    have hlen : input.CustomProperties.length ≠ 0 := by
      intro h0
      rw [List.length_eq_zero] at h0
      rw [h0] at hmem
      simp at hmem
    show List.lookup k (if input.CustomProperties.length ≠ 0 then
        mapSetAll P.CustomProperties input.CustomProperties else P.CustomProperties) = _
    rw [if_pos hlen]
    exact lookup_mapSetAll_of_mem _ _ _ _ hnd hmem
  · unfold UpdateProfile
    simp only [hRead]
    obtain ⟨pid, pca, pua, pnm, pds, pst, pcp⟩ := P
    by_cases h1 : input.Name = "" <;> by_cases h2 : input.Description = "" <;>
      by_cases h3 : input.CustomProperties.length = 0 <;>
      simp only [h1, h2, h3, marshalProfile, ne_eq, not_true_eq_false, not_false_eq_true,
        if_true, if_false] <;>
      split <;> rfl

/-- C12 on the key-value backend holding the profile `gold`, for an input that
carries a description and one custom property. -/
theorem UpdateProfile_read_modify_write_witness :
    ∃ Q : ProfileSpec,
      Q.Name = (if silverInput.Name ≠ "" then silverInput.Name else goldStored.Name) ∧
      Q.Description =
        (if silverInput.Description ≠ "" then silverInput.Description
          else goldStored.Description) ∧
      Q.UpdatedAt = "t3" ∧
      Q.Id = goldStored.Id ∧ Q.CreatedAt = goldStored.CreatedAt ∧
      Q.StorageType = goldStored.StorageType ∧
      (∀ k, k ∉ silverInput.CustomProperties.map Prod.fst →
        List.lookup k Q.CustomProperties = List.lookup k goldStored.CustomProperties) ∧
      ((silverInput.CustomProperties.map Prod.fst).Nodup → ∀ k val,
        (k, val) ∈ silverInput.CustomProperties →
        List.lookup k Q.CustomProperties = some val) ∧
      UpdateProfile kvBackend "v1beta" "t2" "t3" "id1" silverInput goldStore =
        some (if (kvBackend.Update ⟨GenerateProfileURL "v1beta" Etcd "" ["id1"],
                  Document.raw "", Document.profile Q⟩ goldStore).1.Status ≠ "Success" then
            (Except.error (Error.generic (kvBackend.Update
              ⟨GenerateProfileURL "v1beta" Etcd "" ["id1"], Document.raw "",
               Document.profile Q⟩ goldStore).1.Error),
             (kvBackend.Update ⟨GenerateProfileURL "v1beta" Etcd "" ["id1"],
               Document.raw "", Document.profile Q⟩ goldStore).2)
          else
            (Except.ok Q,
             (kvBackend.Update ⟨GenerateProfileURL "v1beta" Etcd "" ["id1"],
               Document.raw "", Document.profile Q⟩ goldStore).2)) :=
  UpdateProfile_read_modify_write kvBackend "v1beta" "t2" "t3" "id1" silverInput goldStored
    goldStore (by decide)

theorem ListProfiles_error_generic {σ : Type} (c : clientInterface σ) (v : String) (s : σ)
    (err : Error) (h : ListProfiles c v s = Except.error err) :
    ∃ msg, err = Error.generic msg := by
  have hdec : ∀ (t : String) (msgs : List Document) (e : Error),
      decodeProfiles t msgs = Except.error e → e = Error.generic t := by
    intro t msgs
    induction msgs with
    | nil => intro e he; simp [decodeProfiles] at he
    | cons msg rest ih =>
      intro e he
      unfold decodeProfiles at he
      split at he
      · simp at he
        exact he.symm
      · split at he
        · simp at he
        · rename_i e2 h2
          simp at he
          subst he
          exact ih _ h2
  unfold ListProfiles at h
  simp only [] at h
  split at h
  · simp at h
    exact ⟨_, h.symm⟩
  · split at h
    · simp at h
    · exact ⟨_, hdec _ _ _ h⟩
theorem getProfileByNameAndType_of_listing {σ : Type} (c : clientInterface σ)
    (v name storageType : String) (s : σ) (profiles : List ProfileSpec)
    (hList : ListProfiles c v s = Except.ok profiles) :
    getProfileByNameAndType c v name storageType s =
      match profiles.find? (fun p => p.Name == name && p.StorageType == storageType) with
      | some p => Except.ok p
      | none =>
        Except.error (Error.notFound
          ("can\x27t find profile(name: " ++ name ++ ", storageType:" ++ storageType ++ ")")) := by
  simp only [getProfileByNameAndType, hList]

theorem find?_first (pred : ProfileSpec → Bool) (before after : List ProfileSpec)
    (p : ProfileSpec) (hbefore : ∀ q ∈ before, pred q = false) (hp : pred p = true) :
    (before ++ p :: after).find? pred = some p := by
  induction before with
  | nil => simp [List.find?_cons, hp]
  | cons q rest ih =>
    have hq := hbefore q (List.mem_cons_self _ _)
    simp only [List.cons_append, List.find?_cons, hq]
    exact ih (fun r hr => hbefore r (List.mem_cons_of_mem _ hr))

theorem find?_relabel (ids : ProfileSpec → String) (name storageType : String)
    (profiles : List ProfileSpec) :
    (profiles.map (relabel ids)).find?
        (fun p => p.Name == name && p.StorageType == storageType)
      = (profiles.find? (fun p => p.Name == name && p.StorageType == storageType)).map
          (relabel ids) := by
  induction profiles with
  | nil => rfl
  | cons p rest ih =>
    simp only [List.map_cons, List.find?_cons]
    have : ((relabel ids p).Name == name && (relabel ids p).StorageType == storageType)
        = (p.Name == name && p.StorageType == storageType) := rfl
    rw [this]
    cases (p.Name == name && p.StorageType == storageType) with
    | true => rfl
    | false => exact ih

/-- C13. Where the listing of the profiles succeeds, `GetDefaultProfile` returns the
first listed profile whose name is `default_block` and whose storage type is
`block` (`GetDefaultProfileFileShare`: `default_file` and `file`), and fails with a
NotFound error when no listed profile is such. The identities play no part: a
listing that differs only in the identities gives the same profile with its new
identity. Where the listing fails, both return the error of the listing, which is
a generic error and so differs from every NotFound error. -/
theorem GetDefaultProfile_resolution {σ : Type} (c : clientInterface σ) (v : String)
    (s : σ) :
    (∀ profiles, ListProfiles c v s = Except.ok profiles →
      (GetDefaultProfile c v s =
        match profiles.find?
            (fun p => p.Name == "default_block" && p.StorageType == "block") with
        | some p => Except.ok p
        | none => Except.error (Error.notFound
            "can\x27t find profile(name: default_block, storageType:block)")) ∧
      (GetDefaultProfileFileShare c v s =
        match profiles.find?
            (fun p => p.Name == "default_file" && p.StorageType == "file") with
        | some p => Except.ok p
        | none => Except.error (Error.notFound
            "can\x27t find profile(name: default_file, storageType:file)")) ∧
      (∀ p, GetDefaultProfile c v s = Except.ok p ↔
        ∃ before after, profiles = before ++ p :: after ∧
          p.Name = "default_block" ∧ p.StorageType = "block" ∧
          ∀ q ∈ before, ¬ (q.Name = "default_block" ∧ q.StorageType = "block")) ∧
      (∀ (s2 : σ) (ids : ProfileSpec → String),
        ListProfiles c v s2 = Except.ok (profiles.map (relabel ids)) →
        GetDefaultProfile c v s2 = (GetDefaultProfile c v s).map (relabel ids))) ∧
    (∀ err, ListProfiles c v s = Except.error err →
      GetDefaultProfile c v s = Except.error err ∧
      GetDefaultProfileFileShare c v s = Except.error err ∧
      (∃ msg, err = Error.generic msg) ∧ ∀ msg, err ≠ Error.notFound msg) := by
  constructor
  · intro profiles hList
    have hB := getProfileByNameAndType_of_listing c v "default_block" "block" s profiles hList
    have hF := getProfileByNameAndType_of_listing c v "default_file" "file" s profiles hList
    refine ⟨?_, ?_, ?_, ?_⟩
    · simpa [GetDefaultProfile, defaultBlockProfileName, typeBlock] using hB
    · simpa [GetDefaultProfileFileShare, defaultFileProfileName, typeFile] using hF
    · intro p
      have hG : GetDefaultProfile c v s =
          match profiles.find?
              (fun p => p.Name == "default_block" && p.StorageType == "block") with
          | some p => Except.ok p
          | none => Except.error (Error.notFound
              "can\x27t find profile(name: default_block, storageType:block)") := by
        simpa [GetDefaultProfile, defaultBlockProfileName, typeBlock] using hB
      rw [hG]
      cases hf : profiles.find?
          (fun p => p.Name == "default_block" && p.StorageType == "block") with
      | none =>
        simp only []
        constructor
        · intro h; simp at h
        · rintro ⟨before, after, hp, hn, ht, _⟩
          rw [List.find?_eq_none] at hf
          have := hf p (by rw [hp]; simp)
          simp [hn, ht] at this
      | some q =>
        simp only [Except.ok.injEq]
        have hf0 := hf
        rw [List.find?_eq_some] at hf
        obtain ⟨hq, before, after, hqa, hbef⟩ := hf
        simp only [Bool.and_eq_true, beq_iff_eq] at hq
        constructor
        · intro h
          subst h
          refine ⟨before, after, hqa, hq.1, hq.2, ?_⟩
          intro r hr hr2
          have := hbef r hr
          simp [hr2.1, hr2.2] at this
        · rintro ⟨before2, after2, hp, hn, ht, hnone⟩
          have hfirst := find?_first (fun p => p.Name == "default_block" &&
            p.StorageType == "block") before2 after2 p
            (by
              intro r hr
              have := hnone r hr
              simp only [Bool.and_eq_false_iff, beq_eq_false_iff_ne]
              by_cases h1 : r.Name = "default_block"
              · right; exact fun h2 => this ⟨h1, h2⟩
              · left; exact h1)
            (by simp [hn, ht])
          rw [← hp, hf0] at hfirst
          exact Option.some.inj hfirst
    · intro s2 ids hList2
      have hB2 := getProfileByNameAndType_of_listing c v "default_block" "block" s2 _ hList2
      simp only [GetDefaultProfile, defaultBlockProfileName, typeBlock]
      rw [hB2, hB, find?_relabel]
      cases profiles.find? (fun p => p.Name == "default_block" && p.StorageType == "block")
        <;> rfl
  · intro err hErr
    obtain ⟨msg, hmsg⟩ := ListProfiles_error_generic c v s err hErr
    refine ⟨?_, ?_, ⟨msg, hmsg⟩, ?_⟩
    · simp [GetDefaultProfile, getProfileByNameAndType, hErr]
    · simp [GetDefaultProfileFileShare, getProfileByNameAndType, hErr]
    · intro m hm
      rw [hmsg] at hm
      cases hm
/-- C13 on the key-value backend: a store holding the default block profile, a store
without one, and a store whose listing fails on an undecodable document. -/
theorem GetDefaultProfile_resolution_witness :
    GetDefaultProfile kvBackend "v1beta" defaultStore = Except.ok defaultBlock
    ∧ GetDefaultProfile kvBackend "v1beta" goldStore =
        Except.error (Error.notFound
          "can\x27t find profile(name: default_block, storageType:block)")
    ∧ GetDefaultProfile kvBackend "v1beta" brokenStore = Except.error (Error.generic "") :=
  ⟨((GetDefaultProfile_resolution kvBackend "v1beta" defaultStore).1
      [goldStored, defaultBlock] (by decide)).1.trans (by decide),
   ((GetDefaultProfile_resolution kvBackend "v1beta" goldStore).1
      [goldStored] (by decide)).1.trans (by decide),
   ((GetDefaultProfile_resolution kvBackend "v1beta" brokenStore).2
      (Error.generic "") (by decide)).1⟩

theorem GetOffset_le_size (m : Params) (size offset : Int) (hsize : 0 ≤ size)
    (h : GetOffset m size = some offset) : offset ≤ size := by
  unfold GetOffset at h
  split at h
  · split at h
    · simp at h
    · split at h
      · split at h
        · simp [DefaultOffset] at h; omega
        · simp at h; omega
      · simp [DefaultOffset] at h; omega
  · simp [DefaultOffset] at h; omega

/-- C14. For parameters whose recognised keys carry at least one value each, a size
`>= 0`, and a resolved limit and offset whose sum does not exceed the largest `int`
(`2^63 - 1`), `ParameterFilter` returns a page specification with
`0 <= beginIdx <= endIdx <= size`. -/
theorem ParameterFilter_in_bounds [CaseTables] (m : Params) (size : Int) (sortKeys : List String)
    (hv : ∀ key ∈ validKey, HasValue m key) (hsize : 0 ≤ size)
    (hsum : ∀ limit offset, GetLimit m = some limit → GetOffset m size = some offset →
      limit + offset ≤ 2 ^ 63 - 1) :
    ∃ p, ParameterFilter m size sortKeys = some p ∧
      0 ≤ p.beginIdx ∧ p.beginIdx ≤ p.endIdx ∧ p.endIdx ≤ size := by
  obtain ⟨limit, hL⟩ := GetLimit_isSome m (hv "limit" (by decide))
  obtain ⟨offset, hO⟩ := GetOffset_isSome m size (hv "offset" (by decide))
  obtain ⟨sortDir, hD⟩ := GetSortDir_isSome m (hv "sortDir" (by decide))
  obtain ⟨sortKey, hK⟩ := GetSortKey_isSome m sortKeys (hv "sortKey" (by decide))
  have hl0 : 0 ≤ limit := GetLimit_nonneg m limit hL
  have ho0 : 0 ≤ offset := GetOffset_nonneg m size offset hO
  have hos : offset ≤ size := GetOffset_le_size m size offset hsize hO
  have hs := hsum limit offset hL hO
  have hw : wrapInt (limit + offset) = limit + offset := by
    unfold wrapInt
    omega
  refine ⟨⟨offset, if limit = DefaultLimit ∨ wrapInt (limit + offset) > size then size
      else wrapInt (limit + offset), sortDir, sortKey⟩, ?_, ho0, ?_, ?_⟩
  · simp only [ParameterFilter, hL, hO, hD, hK]
  · show offset ≤ (if limit = DefaultLimit ∨ wrapInt (limit + offset) > size then size
      else wrapInt (limit + offset))
    rw [hw]
    split <;> omega
  · show (if limit = DefaultLimit ∨ wrapInt (limit + offset) > size then size
      else wrapInt (limit + offset)) ≤ size
    rw [hw]
    split
    · omega
    · rename_i hn
      simp only [not_or, not_lt, gt_iff_lt] at hn
      omega

/-- C14 at `limit=2`, `offset=1` and a collection of 5 elements. -/
theorem ParameterFilter_in_bounds_witness :
    ∃ p, @ParameterFilter basicLatinTables [("limit", ["2"]), ("offset", ["1"])] 5
        (sortableKeys typePools) = some p ∧
      0 ≤ p.beginIdx ∧ p.beginIdx ≤ p.endIdx ∧ p.endIdx ≤ 5 :=
  @ParameterFilter_in_bounds basicLatinTables [("limit", ["2"]), ("offset", ["1"])] 5
    (sortableKeys typePools) (by decide) (by decide)
    (by
      intro limit offset hL hO
      have h1 : GetLimit [("limit", ["2"]), ("offset", ["1"])] = some 2 := by decide
      have h2 : GetOffset [("limit", ["2"]), ("offset", ["1"])] 5 = some 1 := by decide
      rw [h1] at hL
      rw [h2] at hO
      cases hL
      cases hO
      decide)

theorem CreateProfile_eq {σ : Type} (c : clientInterface σ) (v newId now : String)
    (prf : ProfileSpec) (s : σ) :
    CreateProfile c v newId now prf s =
      match getProfileByName c v prf.Name s with
      | Except.ok _ =>
        (Except.error
          (Error.generic ("the profile name \x27" ++ prf.Name ++ "\x27 already exists")), s)
      | Except.error _ =>
        if (c.Create (createRequest v (stampedProfile newId now prf)) s).1.Status ≠ "Success"
        then
          (Except.error (Error.generic
            (c.Create (createRequest v (stampedProfile newId now prf)) s).1.Error),
           (c.Create (createRequest v (stampedProfile newId now prf)) s).2)
        else
          (Except.ok (stampedProfile newId now prf),
           (c.Create (createRequest v (stampedProfile newId now prf)) s).2) := by
  obtain ⟨pid, pca, pua, pnm, pds, pst, pcp⟩ := prf
  unfold CreateProfile stampedProfile createRequest
  by_cases h1 : pid = "" <;> by_cases h2 : pca = "" <;>
    simp only [h1, h2, if_true, if_false, marshalProfile]

theorem getProfileByName_ok_iff {σ : Type} (c : clientInterface σ) (v name : String) (s : σ) :
    (∃ found, getProfileByName c v name s = Except.ok found) ↔
      ∃ profiles, ListProfiles c v s = Except.ok profiles ∧ ∃ p ∈ profiles, p.Name = name := by
  constructor
  · rintro ⟨found, h⟩
    unfold getProfileByName at h
    split at h
    · simp at h
    · rename_i profiles hL
      refine ⟨profiles, hL, ?_⟩
      split at h
      · rename_i p hf
        have := List.find?_some hf
        exact ⟨p, List.mem_of_find?_eq_some hf, by simpa using this⟩
      · simp at h
  · rintro ⟨profiles, hL, hp⟩
    exact getProfileByName_found c v name s profiles hL hp
/-- C15. When the listing of the profiles fails, `CreateProfile` skips the
uniqueness check: it hands the profile (identity and creation time filled in) to the
backend `Create` and returns what that write gives, its error text on a status
other than `Success` and the profile on `Success`, not the error of the listing; it
succeeds exactly when the write reports `Success`. The text of the name-collision
error is returned only when the listing succeeds and holds the name, unless the
backend `Create` itself fails with that very text. On the key-value backend with an
undecodable document among the profiles, a second profile named `gold` is created
although one is stored. -/
theorem CreateProfile_unreadable_listing {σ : Type} (c : clientInterface σ)
    (v newId now : String) (prf : ProfileSpec) (s : σ) :
    (∀ err, ListProfiles c v s = Except.error err →
      CreateProfile c v newId now prf s =
        (if (c.Create (createRequest v (stampedProfile newId now prf)) s).1.Status ≠ "Success"
        then
          (Except.error (Error.generic
            (c.Create (createRequest v (stampedProfile newId now prf)) s).1.Error),
           (c.Create (createRequest v (stampedProfile newId now prf)) s).2)
        else
          (Except.ok (stampedProfile newId now prf),
           (c.Create (createRequest v (stampedProfile newId now prf)) s).2)) ∧
      ((∃ created, (CreateProfile c v newId now prf s).1 = Except.ok created) ↔
        (c.Create (createRequest v (stampedProfile newId now prf)) s).1.Status = "Success")) ∧
    (∀ s2, CreateProfile c v newId now prf s =
        (Except.error
          (Error.generic ("the profile name \x27" ++ prf.Name ++ "\x27 already exists")), s2) →
      (∃ profiles, ListProfiles c v s = Except.ok profiles ∧ ∃ p ∈ profiles, p.Name = prf.Name) ∨
      ((c.Create (createRequest v (stampedProfile newId now prf)) s).1.Status ≠ "Success" ∧
        (c.Create (createRequest v (stampedProfile newId now prf)) s).1.Error
          = "the profile name \x27" ++ prf.Name ++ "\x27 already exists")) ∧
    (ListProfiles kvBackend "v1beta" brokenStore = Except.error (Error.generic "") ∧
      CreateProfile kvBackend "v1beta" "id2" "t2" goldProfile brokenStore =
        (Except.ok goldSecond,
          brokenStore ++ [("v1beta/profiles/id2", Document.profile goldSecond)])) := by
  refine ⟨?_, ?_, by decide⟩
  · intro err hErr
    have hG : getProfileByName c v prf.Name s = Except.error err := by
      simp [getProfileByName, hErr]
    have hC := CreateProfile_eq c v newId now prf s
    rw [hG] at hC
    simp only [] at hC
    refine ⟨hC, ?_⟩
    rw [hC]
    by_cases hS : (c.Create (createRequest v (stampedProfile newId now prf)) s).1.Status
        = "Success"
    · simp [hS]
    · simp [hS]
  · intro s2 h
    have hC := CreateProfile_eq c v newId now prf s
    rw [h] at hC
    cases hG : getProfileByName c v prf.Name s with
    | ok found =>
      left
      exact (getProfileByName_ok_iff c v prf.Name s).1 ⟨found, hG⟩
    | error e =>
      right
      rw [hG] at hC
      simp only [] at hC
      by_cases hS : (c.Create (createRequest v (stampedProfile newId now prf)) s).1.Status
          = "Success"
      · simp [hS] at hC
      · simp only [ne_eq, hS, not_false_eq_true, if_true, Prod.mk.injEq, Except.error.injEq,
          Error.generic.injEq] at hC
        exact ⟨hS, hC.1.symm⟩

/-- C15 on the key-value backend whose profile listing fails on an undecodable
document: the profile `gold` is written under a new identity. -/
theorem CreateProfile_unreadable_listing_witness :
    CreateProfile kvBackend "v1beta" "id2" "t2" goldProfile brokenStore =
      (Except.ok goldSecond,
        brokenStore ++ [("v1beta/profiles/id2", Document.profile goldSecond)]) :=
  (((CreateProfile_unreadable_listing kvBackend "v1beta" "id2" "t2" goldProfile
      brokenStore).1 (Error.generic "") (by decide)).1).trans (by decide)

theorem registerInOrder_append {σ : Type} (register : Resource → σ → Option Error × σ)
    (xs ys : List Resource) (s : σ) :
    registerInOrder register (xs ++ ys) s =
      match (registerInOrder register xs s).1 with
      | some _ => registerInOrder register xs s
      | none =>
        ((registerInOrder register ys (registerInOrder register xs s).2.1).1,
         (registerInOrder register ys (registerInOrder register xs s).2.1).2.1,
         (registerInOrder register xs s).2.2 ++
           (registerInOrder register ys (registerInOrder register xs s).2.1).2.2) := by
  induction xs generalizing s with
  | nil => simp [registerInOrder]
  | cons r rest ih =>
    simp only [List.cons_append, registerInOrder]
    cases hr : register r s with
    | mk e s1 =>
      cases e with
      | some err => rfl
      | none =>
        cases h1 : (registerInOrder register rest s1).1 with
        | some err => simp [h1, ih s1]
        | none => simp [h1, ih s1]

theorem reportDocks_eq {σ : Type} (c : dbClient σ) (dcks : List DockSpec) (s : σ) :
    reportDocks c dcks s =
      ((registerInOrder (Register c) (dcks.map Resource.dock) s).1,
       (registerInOrder (Register c) (dcks.map Resource.dock) s).2.1) := by
  induction dcks generalizing s with
  | nil => rfl
  | cons dck rest ih =>
    simp only [reportDocks, List.map_cons, registerInOrder]
    cases hr : Register c (Resource.dock dck) s with
    | mk e s1 =>
      cases e with
      | some err => rfl
      | none => simp only [ih s1]

theorem reportPools_none_eq {σ : Type} (c : dbClient σ) (pols : List StoragePoolSpec) (s : σ) :
    reportPools c none pols s =
      ((registerInOrder (Register c) (pols.map Resource.pool) s).1,
       (registerInOrder (Register c) (pols.map Resource.pool) s).2.1) := by
  induction pols generalizing s with
  | nil => rfl
  | cons pol rest ih =>
    simp only [reportPools, List.map_cons, registerInOrder]
    cases hr : Register c (Resource.pool pol) s with
    | mk e s1 =>
      cases e with
      | some err =>
        cases rest with
        | nil => rfl
        | cons p2 r2 => rfl
      | none => simp only [ih s1]

theorem reportPools_some_eq {σ : Type} (c : dbClient σ) (err : Error)
    (pols : List StoragePoolSpec) (s : σ) :
    reportPools c (some err) pols s = (some err, s) := by
  cases pols <;> rfl

theorem Report_eq_registerInOrder {σ : Type} (c : dbClient σ) (dcks : List DockSpec)
    (pols : List StoragePoolSpec) (s : σ) :
    Report c dcks pols s =
      ((registerInOrder (Register c)
          (dcks.map Resource.dock ++ pols.map Resource.pool) s).1,
       (registerInOrder (Register c)
          (dcks.map Resource.dock ++ pols.map Resource.pool) s).2.1) := by
  unfold Report
  rw [reportDocks_eq, registerInOrder_append]
  cases h : (registerInOrder (Register c) (dcks.map Resource.dock) s).1 with
  | some err => simp only [reportPools_some_eq, h]
  | none => simp only [reportPools_none_eq]
theorem registerInOrder_prefix {σ : Type} (register : Resource → σ → Option Error × σ)
    (rs : List Resource) (s : σ) :
    ∃ rest, rs = (registerInOrder register rs s).2.2 ++ rest ∧
      ((registerInOrder register rs s).1 = none → rest = []) := by
  induction rs generalizing s with
  | nil => exact ⟨[], rfl, fun _ => rfl⟩
  | cons r tail ih =>
    simp only [registerInOrder]
    cases hr : register r s with
    | mk e s1 =>
      cases e with
      | some err => exact ⟨tail, rfl, fun h => by simp at h⟩
      | none =>
        obtain ⟨rest, h1, h2⟩ := ih s1
        refine ⟨rest, ?_, h2⟩
        simp only [List.cons_append]
        rw [← h1]

theorem registerInOrder_none_iff {σ : Type} (register : Resource → σ → Option Error × σ)
    (rs : List Resource) (s : σ) :
    (registerInOrder register rs s).1 = none ↔ allSucceed register rs s := by
  induction rs generalizing s with
  | nil => simp [registerInOrder, allSucceed]
  | cons r tail ih =>
    simp only [registerInOrder, allSucceed]
    cases hr : register r s with
    | mk e s1 =>
      cases e with
      | some err => simp
      | none => simpa using ih s1

theorem registerInOrder_failure {σ : Type} (register : Resource → σ → Option Error × σ)
    (rs : List Resource) (s : σ) (e : Error)
    (h : (registerInOrder register rs s).1 = some e) :
    ∃ init last sInit,
      (registerInOrder register rs s).2.2 = init ++ [last] ∧
      registerInOrder register init s = (none, sInit, init) ∧
      register last sInit = (some e, (registerInOrder register rs s).2.1) := by
  induction rs generalizing s with
  | nil => simp [registerInOrder] at h
  | cons r tail ih =>
    simp only [registerInOrder] at h ⊢
    cases hr : register r s with
    | mk e1 s1 =>
      rw [hr] at h
      cases e1 with
      | some err =>
        simp only [Option.some.injEq] at h
        subst h
        exact ⟨[], r, s, rfl, rfl, hr⟩
      | none =>
        simp only [] at h
        obtain ⟨init, last, sInit, h1, h2, h3⟩ := ih s1 h
        refine ⟨r :: init, last, sInit, ?_, ?_, h3⟩
        · simp only [h1, List.cons_append]
        · simp only [registerInOrder, hr, h2]

theorem Register_tracedClient {σ : Type} (c : dbClient σ) (r : Resource) (s : σ)
    (log : List Resource) (hr : r ≠ Resource.other) :
    Register (tracedClient c) r (s, log) =
      ((Register c r s).1, ((Register c r s).2, log ++ [r])) := by
  cases r with
  | dock dck =>
    simp only [Register, tracedClient]
    cases h : c.CreateDock dck s with
    | mk res s1 => cases res <;> rfl
  | pool pol =>
    simp only [Register, tracedClient]
    cases h : c.CreatePool pol s with
    | mk res s1 => cases res <;> rfl
  | other => exact absurd rfl hr

theorem registerInOrder_tracedClient {σ : Type} (c : dbClient σ) (rs : List Resource)
    (s : σ) (log : List Resource) (hrs : ∀ r ∈ rs, r ≠ Resource.other) :
    registerInOrder (Register (tracedClient c)) rs (s, log) =
      ((registerInOrder (Register c) rs s).1,
       ((registerInOrder (Register c) rs s).2.1,
         log ++ (registerInOrder (Register c) rs s).2.2),
       (registerInOrder (Register c) rs s).2.2) := by
  induction rs generalizing s log with
  | nil => simp [registerInOrder]
  | cons r tail ih =>
    have hr := hrs r (List.mem_cons_self _ _)
    have htail : ∀ x ∈ tail, x ≠ Resource.other :=
      fun x hx => hrs x (List.mem_cons_of_mem _ hx)
    simp only [registerInOrder, Register_tracedClient c r s log hr]
    cases h : Register c r s with
    | mk e s1 =>
      cases e with
      | some err => rfl
      | none =>
        simp only [ih s1 (log ++ [r]) htail, List.append_assoc, List.singleton_append]
theorem Report_tracedClient {σ : Type} (c : dbClient σ) (dcks : List DockSpec)
    (pols : List StoragePoolSpec) (s : σ) :
    Report (tracedClient c) dcks pols (s, []) =
      ((registerInOrder (Register c)
          (dcks.map Resource.dock ++ pols.map Resource.pool) s).1,
       ((registerInOrder (Register c)
          (dcks.map Resource.dock ++ pols.map Resource.pool) s).2.1,
        (registerInOrder (Register c)
          (dcks.map Resource.dock ++ pols.map Resource.pool) s).2.2)) := by
  have hrs : ∀ r ∈ dcks.map Resource.dock ++ pols.map Resource.pool, r ≠ Resource.other := by
    intro r hr
    simp only [List.mem_append, List.mem_map] at hr
    rcases hr with ⟨d, _, hd⟩ | ⟨p, _, hp⟩
    · rw [← hd]; exact fun h => Resource.noConfusion h
    · rw [← hp]; exact fun h => Resource.noConfusion h
  rw [Report_eq_registerInOrder, registerInOrder_tracedClient c _ s [] hrs]
  simp

/-- C16. `Report` registers the docks and then the pools in order and stops at the
first registration that fails. With the calls recorded by the client: the
registrations attempted are an initial part of `docks ++ pools`, all of it when no
error is returned; a returned error is the error of the last registration
attempted, every registration before it having succeeded, and the state returned
is the one that registration left; no error is returned if and only if every
registration succeeds; when a dock registration fails, its error is returned and
no pool is among the registrations attempted. `Report` agrees with the
specification `registerInOrder`. -/
theorem Report_stops_at_first_failure {σ : Type} (c : dbClient σ) (dcks : List DockSpec)
    (pols : List StoragePoolSpec) (s : σ) :
    Report c dcks pols s =
      ((registerInOrder (Register c)
          (dcks.map Resource.dock ++ pols.map Resource.pool) s).1,
       (registerInOrder (Register c)
          (dcks.map Resource.dock ++ pols.map Resource.pool) s).2.1) ∧
    ((Report (tracedClient c) dcks pols (s, [])).1 = (Report c dcks pols s).1 ∧
      (Report (tracedClient c) dcks pols (s, [])).2.1 = (Report c dcks pols s).2) ∧
    (∃ rest, dcks.map Resource.dock ++ pols.map Resource.pool =
        (Report (tracedClient c) dcks pols (s, [])).2.2 ++ rest ∧
      ((Report c dcks pols s).1 = none → rest = [])) ∧
    (∀ e, (Report c dcks pols s).1 = some e →
      ∃ init last sInit,
        (Report (tracedClient c) dcks pols (s, [])).2.2 = init ++ [last] ∧
        registerInOrder (Register c) init s = (none, sInit, init) ∧
        allSucceed (Register c) init s ∧
        Register c last sInit = (some e, (Report c dcks pols s).2)) ∧
    ((Report c dcks pols s).1 = none ↔
      allSucceed (Register c) (dcks.map Resource.dock ++ pols.map Resource.pool) s) ∧
    (∀ e, (reportDocks c dcks s).1 = some e →
      Report c dcks pols s = (some e, (reportDocks c dcks s).2) ∧
      ∀ pol, Resource.pool pol ∉ (Report (tracedClient c) dcks pols (s, [])).2.2) := by
  have hR := Report_eq_registerInOrder c dcks pols s
  have hT := Report_tracedClient c dcks pols s
  refine ⟨hR, ?_, ?_, ?_, ?_, ?_⟩
  · rw [hT, hR]
    exact ⟨rfl, rfl⟩
  · rw [hT, hR]
    exact registerInOrder_prefix (Register c) _ s
  · intro e he
    rw [hR] at he
    obtain ⟨init, last, sInit, h1, h2, h3⟩ :=
      registerInOrder_failure (Register c) _ s e he
    refine ⟨init, last, sInit, ?_, h2, ?_, ?_⟩
    · rw [hT]; exact h1
    · have := (registerInOrder_none_iff (Register c) init s).1 (by rw [h2])
      exact this
    · rw [hR]; exact h3
  · rw [hR]
    exact registerInOrder_none_iff (Register c) _ s
  · intro e he
    have hD := reportDocks_eq c dcks s
    have he2 : (registerInOrder (Register c) (dcks.map Resource.dock) s).1 = some e := by
      rw [hD] at he; exact he
    have hApp := registerInOrder_append (Register c) (dcks.map Resource.dock)
      (pols.map Resource.pool) s
    rw [he2] at hApp
    simp only [] at hApp
    constructor
    · rw [hR, hApp, hD, he2]
    · intro pol hmem
      rw [hT, hApp] at hmem
      obtain ⟨rest, hpre, _⟩ := registerInOrder_prefix (Register c) (dcks.map Resource.dock) s
      have hin : Resource.pool pol ∈ dcks.map Resource.dock := by
        rw [hpre]
        exact List.mem_append_left _ hmem
      simp only [List.mem_map] at hin
      obtain ⟨d, _, hd⟩ := hin
      exact Resource.noConfusion hd
/-- C16 on a client that refuses the id `bad`: the second of three docks fails, its
error is returned, the first dock alone was accepted and no pool was attempted. -/
theorem Report_stops_at_first_failure_witness :
    Report pickyClient [dockOf "d1", dockOf "bad", dockOf "d3"] [poolOf "p1"] []
      = (some (Error.generic "dock refused"), ["d1"])
    ∧ ∀ pol, Resource.pool pol ∉
        (Report (tracedClient pickyClient) [dockOf "d1", dockOf "bad", dockOf "d3"]
          [poolOf "p1"] ([], [])).2.2 :=
  ⟨((Report_stops_at_first_failure pickyClient [dockOf "d1", dockOf "bad", dockOf "d3"]
      [poolOf "p1"] []).2.2.2.2.2 (Error.generic "dock refused") (by decide)).1.trans
      (by decide),
   ((Report_stops_at_first_failure pickyClient [dockOf "d1", dockOf "bad", dockOf "d3"]
      [poolOf "p1"] []).2.2.2.2.2 (Error.generic "dock refused") (by decide)).2⟩

theorem UpdatePool_of_read {σ : Type} (c : clientInterface σ) (v now polID name desp : String)
    (usedCapacity : Int) (used : Bool) (s : σ) (P : StoragePoolSpec)
    (hRead : GetPool c v polID s = some (Except.ok P)) :
    UpdatePool c v now polID name desp usedCapacity used s =
      some (if (c.Update ⟨GeneratePoolURL v Etcd "" [polID], Document.raw "",
                Document.pool { P with
                  Name := if name ≠ "" then name else P.Name,
                  Description := if desp ≠ "" then desp else P.Description,
                  UpdatedAt := now }⟩ s).1.Status ≠ "Success" then
          (Except.error (Error.generic (c.Update ⟨GeneratePoolURL v Etcd "" [polID],
            Document.raw "", Document.pool { P with
              Name := if name ≠ "" then name else P.Name,
              Description := if desp ≠ "" then desp else P.Description,
              UpdatedAt := now }⟩ s).1.Error),
           (c.Update ⟨GeneratePoolURL v Etcd "" [polID], Document.raw "",
             Document.pool { P with
               Name := if name ≠ "" then name else P.Name,
               Description := if desp ≠ "" then desp else P.Description,
               UpdatedAt := now }⟩ s).2)
        else
          (Except.ok { P with
             Name := if name ≠ "" then name else P.Name,
             Description := if desp ≠ "" then desp else P.Description,
             UpdatedAt := now },
           (c.Update ⟨GeneratePoolURL v Etcd "" [polID], Document.raw "",
             Document.pool { P with
               Name := if name ≠ "" then name else P.Name,
               Description := if desp ≠ "" then desp else P.Description,
               UpdatedAt := now }⟩ s).2)) := by
  unfold UpdatePool
  simp only [hRead]
  obtain ⟨a1, a2, a3, a4, a5, a6, a7, a8, a9, a10⟩ := P
  by_cases h1 : name = "" <;> by_cases h2 : desp = "" <;>
    simp only [h1, h2, marshalPool, ne_eq, not_true_eq_false, not_false_eq_true,
      if_true, if_false] <;>
    split <;> rfl

theorem UpdatePool_ok_form {σ : Type} (c : clientInterface σ) (v now polID name desp : String)
    (usedCapacity : Int) (used : Bool) (s s1 : σ) (p : StoragePoolSpec)
    (h : UpdatePool c v now polID name desp usedCapacity used s = some (Except.ok p, s1)) :
    ∃ P, GetPool c v polID s = some (Except.ok P) ∧
      p = { P with
        Name := if name ≠ "" then name else P.Name,
        Description := if desp ≠ "" then desp else P.Description,
        UpdatedAt := now } := by
  cases hG : GetPool c v polID s with
  | none => simp [UpdatePool, hG] at h
  | some res =>
    cases res with
    | error err => simp [UpdatePool, hG] at h
    | ok P =>
      refine ⟨P, rfl, ?_⟩
      rw [UpdatePool_of_read c v now polID name desp usedCapacity used s P hG] at h
      generalize c.Update _ s = r at h
      by_cases hS : r.1.Status ≠ "Success"
      · rw [if_pos hS] at h
        simp at h
      · rw [if_neg hS] at h
        simp only [Option.some.injEq, Prod.mk.injEq, Except.ok.injEq] at h
        exact h.1.symm
/-- C17. `UpdatePool` never reads its `usedCapacity` and `used` arguments: two calls
that differ only in them are the same call, with the same document written and the
same result. When `GetPool` reads the stored pool `P`, the document `Q` handed to
the backend `Update`, which is also the pool returned on success, is the same for
every `usedCapacity` and `used`: its used capacity and used flag are those of `P`,
and it is `P` but for the name, the description and the time stamp. Two successful
calls at different times return pools that differ in the time stamp only. -/
theorem UpdatePool_ignores_usage {σ : Type} (c : clientInterface σ)
    (v polID name desp : String) (s : σ) :
    (∀ now usedCapacity1 used1 usedCapacity2 used2,
      UpdatePool c v now polID name desp usedCapacity1 used1 s =
        UpdatePool c v now polID name desp usedCapacity2 used2 s) ∧
    (∀ now P, GetPool c v polID s = some (Except.ok P) →
      ∃ Q : StoragePoolSpec,
        Q.UsedCapacity = P.UsedCapacity ∧ Q.Used = P.Used ∧
        Q.Name = (if name ≠ "" then name else P.Name) ∧
        Q.Description = (if desp ≠ "" then desp else P.Description) ∧
        Q.UpdatedAt = now ∧
        { Q with Name := P.Name, Description := P.Description, UpdatedAt := P.UpdatedAt } = P ∧
        ∀ usedCapacity used,
          UpdatePool c v now polID name desp usedCapacity used s =
            some (if (c.Update ⟨GeneratePoolURL v Etcd "" [polID], Document.raw "",
                      Document.pool Q⟩ s).1.Status ≠ "Success" then
                (Except.error (Error.generic (c.Update ⟨GeneratePoolURL v Etcd "" [polID],
                  Document.raw "", Document.pool Q⟩ s).1.Error),
                 (c.Update ⟨GeneratePoolURL v Etcd "" [polID], Document.raw "",
                   Document.pool Q⟩ s).2)
              else
                (Except.ok Q,
                 (c.Update ⟨GeneratePoolURL v Etcd "" [polID], Document.raw "",
                   Document.pool Q⟩ s).2))) ∧
    (∀ now1 now2 usedCapacity1 used1 usedCapacity2 used2 p1 s1 p2 s2,
      UpdatePool c v now1 polID name desp usedCapacity1 used1 s = some (Except.ok p1, s1) →
      UpdatePool c v now2 polID name desp usedCapacity2 used2 s = some (Except.ok p2, s2) →
      { p1 with UpdatedAt := "" } = { p2 with UpdatedAt := "" }) := by
  refine ⟨fun _ _ _ _ _ => rfl, ?_, ?_⟩
  · intro now P hRead
    refine ⟨{ P with
        Name := if name ≠ "" then name else P.Name,
        Description := if desp ≠ "" then desp else P.Description,
        UpdatedAt := now }, rfl, rfl, rfl, rfl, rfl, rfl, ?_⟩
    intro usedCapacity used
    exact UpdatePool_of_read c v now polID name desp usedCapacity used s P hRead
  · intro now1 now2 uc1 u1 uc2 u2 p1 s1 p2 s2 h1 h2
    obtain ⟨P1, hR1, hp1⟩ := UpdatePool_ok_form c v now1 polID name desp uc1 u1 s s1 p1 h1
    obtain ⟨P2, hR2, hp2⟩ := UpdatePool_ok_form c v now2 polID name desp uc2 u2 s s2 p2 h2
    rw [hR1] at hR2
    simp only [Option.some.injEq, Except.ok.injEq] at hR2
    subst hR2
    rw [hp1, hp2]

/-- C17 on the key-value backend holding a pool with used capacity 40 and the used
flag set: a call that passes 0 and `false` returns the pool with 40 and `true`. -/
theorem UpdatePool_ignores_usage_witness :
    (∃ Q : StoragePoolSpec,
        Q.UsedCapacity = poolStored.UsedCapacity ∧ Q.Used = poolStored.Used ∧
        Q.Name = (if "renamed" ≠ "" then "renamed" else poolStored.Name) ∧
        Q.Description = (if "" ≠ "" then "" else poolStored.Description) ∧
        Q.UpdatedAt = "t2" ∧
        { Q with Name := poolStored.Name, Description := poolStored.Description,
                 UpdatedAt := poolStored.UpdatedAt } = poolStored ∧
        ∀ usedCapacity used,
          UpdatePool kvBackend "v1beta" "t2" "p1" "renamed" "" usedCapacity used poolStore =
            some (if (kvBackend.Update ⟨GeneratePoolURL "v1beta" Etcd "" ["p1"],
                      Document.raw "", Document.pool Q⟩ poolStore).1.Status ≠ "Success" then
                (Except.error (Error.generic (kvBackend.Update
                  ⟨GeneratePoolURL "v1beta" Etcd "" ["p1"], Document.raw "",
                   Document.pool Q⟩ poolStore).1.Error),
                 (kvBackend.Update ⟨GeneratePoolURL "v1beta" Etcd "" ["p1"],
                   Document.raw "", Document.pool Q⟩ poolStore).2)
              else
                (Except.ok Q,
                 (kvBackend.Update ⟨GeneratePoolURL "v1beta" Etcd "" ["p1"],
                   Document.raw "", Document.pool Q⟩ poolStore).2)))
    ∧ UpdatePool kvBackend "v1beta" "t2" "p1" "renamed" "" 0 false poolStore =
        UpdatePool kvBackend "v1beta" "t2" "p1" "renamed" "" 99 true poolStore
    ∧ UpdatePool kvBackend "v1beta" "t2" "p1" "renamed" "" 0 false poolStore =
      some (Except.ok
        ⟨"p1", "t1", "t2", "renamed", "first", "available", "az1", "d1", 40, true⟩,
        [("v1beta/pools/p1", Document.pool
          ⟨"p1", "t1", "t2", "renamed", "first", "available", "az1", "d1", 40, true⟩)]) :=
  ⟨(UpdatePool_ignores_usage kvBackend "v1beta" "p1" "renamed" "" poolStore).2.1 "t2"
      poolStored (by decide),
   (UpdatePool_ignores_usage kvBackend "v1beta" "p1" "renamed" "" poolStore).1 "t2" 0 false
      99 true,
   by decide⟩

end Telemetry
